import Mathlib

/-!
# Film-Emulation colour pipeline: a shallow embedding

Embedding of `gamut_matrices.h`, `transfer_functions.h` and the sampler and per-pixel
pipeline of `OpenDRTFilmPipeline.cpp`.

Conventions of the embedding:

* `float` is read in exact arithmetic: every definition is generic over a linearly ordered
  field `F` with a floor function (so it runs on `ℚ` and is stated on `ℝ` where a curve needs
  logarithms).  A literal such as `0.2126f` is read as the decimal it spells.
* `int` is `Int`; the indices that occur are bounded by the cube size, so no wrap-around is
  modelled.
* `std::log`, `std::exp` and `std::pow` come from the C library; they enter as the fields of
  a `Libm F` record, and `realLibm` is their exact reading on `ℝ`.
* a `const float*` table is a function from the flat index to the entry.
-/

namespace FilmEmulation

/-! ## `float3` and its arithmetic (`OpenDRTFilmPipeline.cpp`, lines 38-51) -/

/-- The `float3` record of the source: three channels. -/
structure float3 (F : Type) where
  x : F
  y : F
  z : F
deriving DecidableEq, Repr

section Core

variable {F : Type} [LinearOrderedField F]

/-- Source `make_float3`. -/
def make_float3 (x y z : F) : float3 F := ⟨x, y, z⟩

/-- Source `operator+` on `float3`. -/
def float3.add (a b : float3 F) : float3 F := ⟨a.x + b.x, a.y + b.y, a.z + b.z⟩

/-- Source `operator-` on `float3`. -/
def float3.sub (a b : float3 F) : float3 F := ⟨a.x - b.x, a.y - b.y, a.z - b.z⟩

/-- Source `operator*(float3, float)`. -/
def float3.smul (a : float3 F) (s : F) : float3 F := ⟨a.x * s, a.y * s, a.z * s⟩

/-- Source `operator/(float3, float)`. -/
def float3.sdiv (a : float3 F) (s : F) : float3 F := ⟨a.x / s, a.y / s, a.z / s⟩

instance : Add (float3 F) := ⟨float3.add⟩
instance : Sub (float3 F) := ⟨float3.sub⟩
instance : HMul (float3 F) F (float3 F) := ⟨float3.smul⟩
instance : HMul F (float3 F) (float3 F) := ⟨fun s a => float3.smul a s⟩
instance : HDiv (float3 F) F (float3 F) := ⟨float3.sdiv⟩

/-- Source `clampf`: `std::min(std::max(v, lo), hi)`. -/
def clampf (v lo hi : F) : F := min (max v lo) hi

/-- Source `clamp3`: `clampf` on each channel. -/
def clamp3 (v : float3 F) (lo hi : F) : float3 F :=
  ⟨clampf v.x lo hi, clampf v.y lo hi, clampf v.z lo hi⟩

/-- Source `lerp3`: `a*(1-t) + b*t`. -/
def lerp3 (a b : float3 F) (t : F) : float3 F := a * (1 - t) + b * t

/-- Source `luma_rec709`. -/
def luma_rec709 (v : float3 F) : F := 0.2126 * v.x + 0.7152 * v.y + 0.0722 * v.z

/-! ## `Mat3` (`gamut_matrices.h`) -/

/-- The `Mat3` record of the source: `mIJ` is `m[I][J]`. -/
structure Mat3 (F : Type) where
  m00 : F
  m01 : F
  m02 : F
  m10 : F
  m11 : F
  m12 : F
  m20 : F
  m21 : F
  m22 : F
deriving DecidableEq, Repr

/-- Source `mat_identity`. -/
def mat_identity : Mat3 F := ⟨1, 0, 0, 0, 1, 0, 0, 0, 1⟩

/-- Source `det3`: cofactor expansion along the first row. -/
def det3 (A : Mat3 F) : F :=
  A.m00 * (A.m11 * A.m22 - A.m12 * A.m21)
    - A.m01 * (A.m10 * A.m22 - A.m12 * A.m20)
    + A.m02 * (A.m10 * A.m21 - A.m11 * A.m20)

/-- Source `inv3`: the identity when the determinant is zero, the adjugate times `1/d`
otherwise. -/
def inv3 (A : Mat3 F) : Mat3 F :=
  let d := det3 A
  if d = 0 then mat_identity
  else
    let id := 1 / d
    { m00 := (A.m11 * A.m22 - A.m12 * A.m21) * id
      m01 := -(A.m01 * A.m22 - A.m02 * A.m21) * id
      m02 := (A.m01 * A.m12 - A.m02 * A.m11) * id
      m10 := -(A.m10 * A.m22 - A.m12 * A.m20) * id
      m11 := (A.m00 * A.m22 - A.m02 * A.m20) * id
      m12 := -(A.m00 * A.m12 - A.m02 * A.m10) * id
      m20 := (A.m10 * A.m21 - A.m11 * A.m20) * id
      m21 := -(A.m00 * A.m21 - A.m01 * A.m20) * id
      m22 := (A.m00 * A.m11 - A.m01 * A.m10) * id }

/-- Source `mat_vec`; the `std::array<float,3>` is a triple. -/
def mat_vec (A : Mat3 F) (v : F × F × F) : F × F × F :=
  (A.m00 * v.1 + A.m01 * v.2.1 + A.m02 * v.2.2,
   A.m10 * v.1 + A.m11 * v.2.1 + A.m12 * v.2.2,
   A.m20 * v.1 + A.m21 * v.2.1 + A.m22 * v.2.2)

/-- Source `mat_apply` (`OpenDRTFilmPipeline.cpp`): `mat_vec` on a `float3`. -/
def mat_apply (M : Mat3 F) (v : float3 F) : float3 F :=
  let r := mat_vec M (v.x, v.y, v.z)
  ⟨r.1, r.2.1, r.2.2⟩

/-! ### The gamut constants -/

def matrix_ap0_to_xyz : Mat3 F :=
  ⟨0.938630949, -0.00574192055, 0.0175668989, 0.338093595, 0.727213903, -0.0653074977,
   0.000723121511, 0.000818441849, 1.08751619⟩

def matrix_ap1_to_xyz : Mat3 F :=
  ⟨0.652418718, 0.127179926, 0.170857284, 0.268064059, 0.672464479, 0.0594714618,
   -0.00546992851, 0.00518279998, 1.08934488⟩

def matrix_p3d65_to_xyz : Mat3 F :=
  ⟨0.486570949, 0.265667693, 0.198217285, 0.228974564, 0.691738522, 0.0792869141,
   0, 0.0451133819, 1.04394437⟩

def matrix_rec2020_to_xyz : Mat3 F :=
  ⟨0.636958048, 0.144616904, 0.168880975, 0.262700212, 0.677998072, 0.0593017165,
   0, 0.028072693, 1.06098506⟩

def matrix_rec709_to_xyz : Mat3 F :=
  ⟨0.412390799, 0.357584339, 0.180480788, 0.212639006, 0.715168679, 0.0721923154,
   0.0193308187, 0.11919478, 0.950532152⟩

def matrix_arriwg3_to_xyz : Mat3 F :=
  ⟨0.638007619, 0.214703856, 0.0977444514, 0.291953779, 0.823841042, -0.115794821,
   0.00279827903, -0.0670342357, 1.15329371⟩

def matrix_arriwg4_to_xyz : Mat3 F :=
  ⟨0.70485832, 0.129760295, 0.115837311, 0.254524176, 0.781477733, -0.0360019091,
   0, 0, 1.08905775⟩

def matrix_redwg_to_xyz : Mat3 F :=
  ⟨0.735275246, 0.0686094106, 0.146571271, 0.286694099, 0.842979134, -0.129673234,
   -0.0796808569, -0.347343217, 1.51608182⟩

def matrix_sonysgamut3_to_xyz : Mat3 F :=
  ⟨0.706482713, 0.12880105, 0.115172164, 0.270979671, 0.786606411, -0.057586082,
   -0.00967784539, 0.00460003749, 1.09413556⟩

def matrix_sonysgamut3cine_to_xyz : Mat3 F :=
  ⟨0.599083921, 0.248925516, 0.10244649, 0.21507582, 0.885068502, -0.100144322,
   -0.0320658495, -0.0276583907, 1.14878199⟩

def matrix_vgamut_to_xyz : Mat3 F :=
  ⟨0.67964447, 0.152211412, 0.118600045, 0.26068555, 0.774894463, -0.0355800134,
   -0.00931019822, -0.00461246704, 1.10298042⟩

def matrix_bmdwg_to_xyz : Mat3 F :=
  ⟨0.606538368, 0.220412735, 0.123504823, 0.26799294, 0.832748409, -0.100741349,
   -0.0294425542, -0.0866124303, 1.20511274⟩

def matrix_egamut_to_xyz : Mat3 F :=
  ⟨0.70539685, 0.164041328, 0.0810177487, 0.280130724, 0.820206642, -0.100337366,
   -0.103781512, -0.072907257, 1.26574652⟩

def matrix_egamut2_to_xyz : Mat3 F :=
  ⟨0.7364777, 0.130739651, 0.0832385758, 0.275069984, 0.82801779, -0.103087775,
   -0.124225154, -0.0871597674, 1.30044267⟩

def matrix_davinciwg_to_xyz : Mat3 F :=
  ⟨0.700622392, 0.148774815, 0.10105872, 0.274118511, 0.873631896, -0.147750407,
   -0.0989629129, -0.137895325, 1.32591599⟩

/-- Source `inputGamutToXYZ`: a `switch` over the gamut index with an identity default. -/
def inputGamutToXYZ (idx : Int) : Mat3 F :=
  if idx = 0 then mat_identity
  else if idx = 1 then matrix_ap0_to_xyz
  else if idx = 2 then matrix_ap1_to_xyz
  else if idx = 3 then matrix_p3d65_to_xyz
  else if idx = 4 then matrix_rec2020_to_xyz
  else if idx = 5 then matrix_rec709_to_xyz
  else if idx = 6 then matrix_arriwg3_to_xyz
  else if idx = 7 then matrix_arriwg4_to_xyz
  else if idx = 8 then matrix_redwg_to_xyz
  else if idx = 9 then matrix_sonysgamut3_to_xyz
  else if idx = 10 then matrix_sonysgamut3cine_to_xyz
  else if idx = 11 then matrix_vgamut_to_xyz
  else if idx = 12 then matrix_bmdwg_to_xyz
  else if idx = 13 then matrix_egamut_to_xyz
  else if idx = 14 then matrix_egamut2_to_xyz
  else if idx = 15 then matrix_davinciwg_to_xyz
  else mat_identity

/-- Source `xyzToDaVinciWG`: the memoised `inv3(matrix_davinciwg_to_xyz)`. -/
def xyzToDaVinciWG : Mat3 F := inv3 matrix_davinciwg_to_xyz

/-- Source `xyzToRec709`: the memoised `inv3(matrix_rec709_to_xyz)`. -/
def xyzToRec709 : Mat3 F := inv3 matrix_rec709_to_xyz

end Core

/-! ## The 3D LUT sampler (`OpenDRTFilmPipeline.cpp`, lines 58-143) -/

/-- The `Lut3D` view of the source: `data` is the flattened table of RGB triples, read at
a flat index, and `size` the edge length of the cube. -/
structure Lut3D (F : Type) where
  data : Int → F
  size : Int

/-- The value that a 32-bit `int` holds when the exact result of an operation is `x`: two's
complement wrap-around, the result of overflowing `int` arithmetic on the usual targets. -/
def wrap_int32 (x : Int) : Int := (x + 2147483648) % 4294967296 - 2147483648

/-- The C++ `std::clamp(v, lo, hi)` on `int`: `(v < lo) ? lo : (hi < v) ? hi : v`. -/
def std_clamp (v lo hi : Int) : Int := if v < lo then lo else if hi < v then hi else v

section Sampler

variable {F : Type} [LinearOrderedField F]

/-- Source `lut_fetch`: the three indices are clamped to `0 .. N-1`, the flat index is
`((r*N + g)*N + b)*3` (blue fastest), and three consecutive entries are read. The index is
taken in exact integers here; `flat_index` below is the same expression in 32-bit `int`. -/
def lut_fetch (lut : Lut3D F) (r g b : Int) : float3 F :=
  let N := lut.size
  let r := std_clamp r 0 (N - 1)
  let g := std_clamp g 0 (N - 1)
  let b := std_clamp b 0 (N - 1)
  let idx := ((r * N + g) * N + b) * 3
  ⟨lut.data idx, lut.data (idx + 1), lut.data (idx + 2)⟩

/-- The value `idx` of `lut_fetch` as the source computes it, in 32-bit `int`: the requested
indices are clamped to `0 .. N-1` and every product and sum of `((r*N + g)*N + b)*3` is
wrapped to 32 bits. -/
def flat_index (N r g b : Int) : Int :=
  let r := std_clamp r 0 (wrap_int32 (N - 1))
  let g := std_clamp g 0 (wrap_int32 (N - 1))
  let b := std_clamp b 0 (wrap_int32 (N - 1))
  wrap_int32 (wrap_int32 (wrap_int32 (wrap_int32 (wrap_int32 (r * N) + g) * N) + b) * 3)

/-- The same index in exact integers, which is the entry that the definition `lut_fetch`
above reads. It is `flat_index` as long as no intermediate result leaves the range of `int`,
which holds for every table of edge length at most `894`. -/
def flat_index_exact (N r g b : Int) : Int :=
  ((std_clamp r 0 (N - 1) * N + std_clamp g 0 (N - 1)) * N + std_clamp b 0 (N - 1)) * 3

variable [FloorRing F]

/-- Source `lut_sample_tetra`: clamp the input to the unit cube, scale to the grid, split
into cell index and fractional offset, fetch the eight corners, and interpolate in the
tetrahedron selected by the order of the offsets. -/
def lut_sample_tetra (lut : Lut3D F) (inp : float3 F) : float3 F :=
  let N := lut.size
  let x := clamp3 inp 0 1
  let fx := x.x * ((N - 1 : Int) : F)
  let fy := x.y * ((N - 1 : Int) : F)
  let fz := x.z * ((N - 1 : Int) : F)
  let ix : Int := ⌊fx⌋
  let iy : Int := ⌊fy⌋
  let iz : Int := ⌊fz⌋
  let dx := fx - (ix : F)
  let dy := fy - (iy : F)
  let dz := fz - (iz : F)
  let c000 := lut_fetch lut ix iy iz
  let c100 := lut_fetch lut (ix + 1) iy iz
  let c010 := lut_fetch lut ix (iy + 1) iz
  let c001 := lut_fetch lut ix iy (iz + 1)
  let c110 := lut_fetch lut (ix + 1) (iy + 1) iz
  let c101 := lut_fetch lut (ix + 1) iy (iz + 1)
  let c011 := lut_fetch lut ix (iy + 1) (iz + 1)
  let c111 := lut_fetch lut (ix + 1) (iy + 1) (iz + 1)
  if dx ≥ dy then
    if dy ≥ dz then
      c000 + (c100 - c000) * dx + (c110 - c100) * dy + (c111 - c110) * dz
    else if dx ≥ dz then
      c000 + (c100 - c000) * dx + (c101 - c100) * dz + (c111 - c101) * dy
    else
      c000 + (c001 - c000) * dz + (c101 - c001) * dx + (c111 - c101) * dy
  else
    if dx ≥ dz then
      c000 + (c010 - c000) * dy + (c110 - c010) * dx + (c111 - c110) * dz
    else if dy ≥ dz then
      c000 + (c010 - c000) * dy + (c011 - c010) * dz + (c111 - c011) * dx
    else
      c000 + (c001 - c000) * dz + (c011 - c001) * dy + (c111 - c011) * dx

/-- The value `fx` (and `fy`, `fz`) of `lut_sample_tetra` for one input coordinate `v`: the
clamped coordinate scaled to the grid. -/
def grid_pos (lut : Lut3D F) (v : F) : F := clampf v 0 1 * ((lut.size - 1 : Int) : F)

/-- The value `ix` (and `iy`, `iz`) of `lut_sample_tetra` for one input coordinate. -/
def cell_index (lut : Lut3D F) (v : F) : Int := ⌊grid_pos lut v⌋

/-- The value `dx` (and `dy`, `dz`) of `lut_sample_tetra` for one input coordinate. -/
def frac_offset (lut : Lut3D F) (v : F) : F := grid_pos lut v - (cell_index lut v : F)

/-- The interpolation step of `lut_sample_tetra` (source lines 99-142) as a function of the
eight corner values and the three fractional offsets. -/
def tetra_interp (c000 c100 c010 c001 c110 c101 c011 c111 : float3 F) (dx dy dz : F) :
    float3 F :=
  if dx ≥ dy then
    if dy ≥ dz then
      c000 + (c100 - c000) * dx + (c110 - c100) * dy + (c111 - c110) * dz
    else if dx ≥ dz then
      c000 + (c100 - c000) * dx + (c101 - c100) * dz + (c111 - c101) * dy
    else
      c000 + (c001 - c000) * dz + (c101 - c001) * dx + (c111 - c101) * dy
  else
    if dx ≥ dz then
      c000 + (c010 - c000) * dy + (c110 - c010) * dx + (c111 - c110) * dz
    else if dy ≥ dz then
      c000 + (c010 - c000) * dy + (c011 - c010) * dz + (c111 - c011) * dx
    else
      c000 + (c001 - c000) * dz + (c011 - c001) * dy + (c111 - c011) * dx

end Sampler

/-! ## Transfer functions (`transfer_functions.h`) -/

/-- The C library functions the transfer curves call: `std::log`, `std::exp` and
`std::pow`. -/
structure Libm (F : Type) where
  log : F → F
  exp : F → F
  pow : F → F → F

/-- The exact reading of the C library on the reals. -/
noncomputable def realLibm : Libm ℝ := ⟨Real.log, Real.exp, fun a b => a ^ b⟩

section Transfer

variable {F : Type} [LinearOrderedField F] (L : Libm F)

/-- Source `_log2f`: `log(x)/log(2)`. -/
def _log2f (x : F) : F := L.log x / L.log 2

/-- Source `_exp2f`: `exp(x*log(2))`. -/
def _exp2f (x : F) : F := L.exp (x * L.log 2)

/-- Source `_expf`. -/
def _expf (x : F) : F := L.exp x

/-- Source `_powf`. -/
def _powf (a b : F) : F := L.pow a b

/-- Source `_exp10f`: `pow(10, x)`. -/
def _exp10f (x : F) : F := L.pow 10 x

/-- Source `oetf_davinci_intermediate`. -/
def oetf_davinci_intermediate (x : F) : F :=
  if x ≤ 0.02740668 then x / 10.44426855 else _exp2f L (x / 0.07329248 - 7) - 0.0075

/-- Source `oetf_filmlight_tlog`. -/
def oetf_filmlight_tlog (x : F) : F :=
  if x < 0.075 then (x - 0.075) / 16.184376489665897
  else _expf L ((x - 0.5520126568606655) / 0.09232902596577353) - 0.0057048244042473785

/-- Source `oetf_acescct`. -/
def oetf_acescct (x : F) : F :=
  if x ≤ 0.155251141552511 then (x - 0.0729055341958355) / 10.5402377416545
  else _exp2f L (x * 17.52 - 9.72)

/-- Source `oetf_arri_logc3`. -/
def oetf_arri_logc3 (x : F) : F :=
  if x < 5.367655 * 0.010591 + 0.092809 then (x - 0.092809) / 5.367655
  else (_exp10f L ((x - 0.385537) / 0.247190) - 0.052272) / 5.555556

/-- Source `oetf_arri_logc4`. -/
def oetf_arri_logc4 (x : F) : F :=
  if x < -0.7774983977293537 then x * 0.3033266726886969 - 0.7774983977293537
  else (_exp2f L (14 * (x - 0.09286412512218964) / 0.9071358748778103 + 6) - 64)
    / 2231.8263090676883

/-- Source `oetf_red_log3g10`. -/
def oetf_red_log3g10 (x : F) : F :=
  if x < 0 then (x / 15.1927) - 0.01
  else (_exp10f L (x / 0.224282) - 1) / 155.975327 - 0.01

/-- Source `oetf_panasonic_vlog`. -/
def oetf_panasonic_vlog (x : F) : F :=
  if x < 0.181 then (x - 0.125) / 5.6 else _exp10f L ((x - 0.598206) / 0.241514) - 0.00873

/-- Source `oetf_sony_slog3`. -/
def oetf_sony_slog3 (x : F) : F :=
  if x < 171.2102946929 / 1023 then
    (x * 1023 - 95) * 0.01125 / (171.2102946929 - 95)
  else _exp10f L ((x * 1023 - 420) / 261.5) * (0.18 + 0.01) - 0.01

/-- Source `oetf_fujifilm_flog2`. -/
def oetf_fujifilm_flog2 (x : F) : F :=
  if x < 0.100686685370811 then (x - 0.092864) / 8.799461
  else _exp10f L ((x - 0.384316) / 0.245281) / 5.555556 - 0.064829 / 5.555556

/-- Source `decode_input_oetf`: a `switch` over the transfer index, passthrough by default. -/
def decode_input_oetf (idx : Int) (x : F) : F :=
  if idx = 0 then x
  else if idx = 1 then oetf_davinci_intermediate L x
  else if idx = 2 then oetf_filmlight_tlog L x
  else if idx = 3 then oetf_acescct L x
  else if idx = 4 then oetf_arri_logc3 L x
  else if idx = 5 then oetf_arri_logc4 L x
  else if idx = 6 then oetf_red_log3g10 L x
  else if idx = 7 then oetf_panasonic_vlog L x
  else if idx = 8 then oetf_sony_slog3 L x
  else if idx = 9 then oetf_fujifilm_flog2 L x
  else x

/-- Source `encode_davinci_intermediate`. -/
def encode_davinci_intermediate (y : F) : F :=
  if y ≤ 0.002624088021941948 then y * 10.44426855
  else 0.07329248 * (_log2f L (max (y + 0.0075) 1e-12) + 7)

/-- Source `decode_davinci_intermediate`. -/
def decode_davinci_intermediate (x : F) : F := oetf_davinci_intermediate L x

/-- Source `encode_rec709_24`: clamp below at zero, then the power `1/2.4`. -/
def encode_rec709_24 (x : F) : F :=
  let x := max x 0
  L.pow x (1 / 2.4)

end Transfer

/-! ## Colour transform layer and LUT bank (`OpenDRTFilmPipeline.cpp`, lines 145-218) -/

/-- The tables declared in `luts_embedded.h`.  Their contents are not part of the sources, so
the bank is a parameter of everything that selects a table. -/
structure EmbeddedLUTs (F : Type) where
  LUT_NEG_CTHULHU : Int → F
  LUT_NEG_LILITH : Int → F
  LUT_NEG_TSATHOGGUA : Int → F
  LUT_NEG_YIG : Int → F
  LUT_SEP_HYDRA : Int → F
  LUT_SEP_OORN : Int → F
  LUT_SEP_ZHAR : Int → F
  LUT_PRINT_KODAK : Int → F

/-- Source `EmbeddedLUTs::LUT_SIZE`. -/
def LUT_SIZE : Int := 33

section Pipeline

variable {F : Type} [LinearOrderedField F]

/-- Source `input_to_dwg_intermediate`: decode the input transfer, go to XYZ, go to linear
DaVinci Wide Gamut, encode to DaVinci Intermediate. -/
def input_to_dwg_intermediate (L : Libm F) (rgb_in : float3 F) (inGamutIdx inOetfIdx : Int) :
    float3 F :=
  let lin : float3 F :=
    ⟨decode_input_oetf L inOetfIdx rgb_in.x,
     decode_input_oetf L inOetfIdx rgb_in.y,
     decode_input_oetf L inOetfIdx rgb_in.z⟩
  let M_in_to_xyz : Mat3 F := inputGamutToXYZ inGamutIdx
  let xyz := mat_apply M_in_to_xyz lin
  let M_xyz_to_dwg : Mat3 F := xyzToDaVinciWG
  let dwg_lin := mat_apply M_xyz_to_dwg xyz
  ⟨encode_davinci_intermediate L dwg_lin.x,
   encode_davinci_intermediate L dwg_lin.y,
   encode_davinci_intermediate L dwg_lin.z⟩

/-- Source `dwg_di_to_rec709_24`: decode DaVinci Intermediate, go to XYZ, go to linear
Rec.709, encode with gamma 2.4. -/
def dwg_di_to_rec709_24 (L : Libm F) (dwg_di : float3 F) : float3 F :=
  let dwg_lin : float3 F :=
    ⟨decode_davinci_intermediate L dwg_di.x,
     decode_davinci_intermediate L dwg_di.y,
     decode_davinci_intermediate L dwg_di.z⟩
  let xyz := mat_apply matrix_davinciwg_to_xyz dwg_lin
  let M_xyz_to_rec709 : Mat3 F := xyzToRec709
  let rec_lin := mat_apply M_xyz_to_rec709 xyz
  ⟨encode_rec709_24 L rec_lin.x, encode_rec709_24 L rec_lin.y, encode_rec709_24 L rec_lin.z⟩

/-- Source `get_neg_lut`: a `switch` whose `default` label sits on the Cthulhu case. -/
def get_neg_lut (E : EmbeddedLUTs F) (choice : Int) : Lut3D F :=
  if choice = 0 then ⟨E.LUT_NEG_CTHULHU, LUT_SIZE⟩
  else if choice = 1 then ⟨E.LUT_NEG_LILITH, LUT_SIZE⟩
  else if choice = 2 then ⟨E.LUT_NEG_TSATHOGGUA, LUT_SIZE⟩
  else if choice = 3 then ⟨E.LUT_NEG_YIG, LUT_SIZE⟩
  else ⟨E.LUT_NEG_CTHULHU, LUT_SIZE⟩

/-- Source `get_sep_lut`: a `switch` whose `default` label sits on the Hydra case. -/
def get_sep_lut (E : EmbeddedLUTs F) (choice : Int) : Lut3D F :=
  if choice = 0 then ⟨E.LUT_SEP_HYDRA, LUT_SIZE⟩
  else if choice = 1 then ⟨E.LUT_SEP_OORN, LUT_SIZE⟩
  else if choice = 2 then ⟨E.LUT_SEP_ZHAR, LUT_SIZE⟩
  else ⟨E.LUT_SEP_HYDRA, LUT_SIZE⟩

/-- Source `get_print_lut`: the choice is ignored. -/
def get_print_lut (E : EmbeddedLUTs F) (_choice : Int) : Lut3D F :=
  ⟨E.LUT_PRINT_KODAK, LUT_SIZE⟩

/-! ## The per-pixel pipeline (`FilmPipelineProcessor`, lines 220-315) -/

/-- The parameter fields of `FilmPipelineProcessor`, filled once per render. -/
structure FilmPipelineProcessor (F : Type) where
  inGamut : Int
  inOetf : Int
  negEnable : Bool
  negChoice : Int
  negBlend : F
  sepEnable : Bool
  sepChoice : Int
  sepBlend : F
  printEnable : Bool
  printChoice : Int
  printBlend : F

/-- The local variables of one iteration of the pixel loop of
`multiThreadProcessImages`, under the names they have in the source. -/
structure PixelLocals (F : Type) where
  rgb_in : float3 F
  a_in : F
  dwg_di : float3 F
  after_neg : float3 F
  after_sep : float3 F
  baseline : float3 F
  out_rgb : float3 F

variable [FloorRing F]

/-- One iteration of the pixel loop of `multiThreadProcessImages`, up to the write-back:
`srcPix` is the source pixel (component `i` at index `i`) and `nComp` the component count. -/
def pixel_locals (L : Libm F) (E : EmbeddedLUTs F) (P : FilmPipelineProcessor F)
    (nComp : Int) (srcPix : Nat → F) : PixelLocals F :=
  let negLut := get_neg_lut E P.negChoice
  let sepLut := get_sep_lut E P.sepChoice
  let printLut := get_print_lut E P.printChoice
  let rgb_in : float3 F := ⟨srcPix 0, srcPix 1, srcPix 2⟩
  let a_in : F := if nComp = 4 then srcPix 3 else 1
  let dwg_di := input_to_dwg_intermediate L rgb_in P.inGamut P.inOetf
  let after_neg :=
    if P.negEnable then
      let Y := luma_rec709 dwg_di
      let neutral : float3 F := ⟨Y, Y, Y⟩
      let lutOut := lut_sample_tetra negLut neutral
      let Y2 := luma_rec709 lutOut
      let scale := if Y > 1e-6 then Y2 / Y else 1
      let scaled := dwg_di * scale
      lerp3 dwg_di scaled (clampf P.negBlend 0 1)
    else dwg_di
  let after_sep :=
    if P.sepEnable then
      let sepOut := lut_sample_tetra sepLut after_neg
      lerp3 after_neg sepOut (clampf P.sepBlend 0 1)
    else after_neg
  let baseline := dwg_di_to_rec709_24 L after_sep
  let out_rgb :=
    if P.printEnable then
      let kodak := lut_sample_tetra printLut after_sep
      lerp3 baseline kodak (clampf P.printBlend 0 1)
    else baseline
  ⟨rgb_in, a_in, dwg_di, after_neg, after_sep, baseline, out_rgb⟩

/-- The value `scale` of the Negative stage for the table `negLut` and the working triple
`dwg_di`: the luma of the table sampled at the neutral triple over the luma of `dwg_di`, or
`1` when that luma is not above `1e-6`. -/
def neg_scale (negLut : Lut3D F) (dwg_di : float3 F) : F :=
  let Y := luma_rec709 dwg_di
  let neutral : float3 F := ⟨Y, Y, Y⟩
  let lutOut := lut_sample_tetra negLut neutral
  let Y2 := luma_rec709 lutOut
  if Y > 1e-6 then Y2 / Y else 1

/-- The write-back of one iteration: `dstPix[0..2]` receive `out_rgb`, `dstPix[3]` receives
`a_in` when there are four components, every other cell keeps its content. -/
def pixel_write (nComp : Int) (v : PixelLocals F) (dstPix : Nat → F) : Nat → F :=
  fun i =>
    if i = 0 then v.out_rgb.x
    else if i = 1 then v.out_rgb.y
    else if i = 2 then v.out_rgb.z
    else if i = 3 ∧ nComp = 4 then v.a_in
    else dstPix i

/-- One iteration of the pixel loop of `multiThreadProcessImages`: the destination pixel
after the iteration. -/
def process_pixel (L : Libm F) (E : EmbeddedLUTs F) (P : FilmPipelineProcessor F)
    (nComp : Int) (srcPix dstPix : Nat → F) : Nat → F :=
  pixel_write nComp (pixel_locals L E P nComp srcPix) dstPix

end Pipeline

/-! ## Reference objects for the sampler properties -/

section Reference

variable {F : Type} [LinearOrderedField F]

/-- The identity cube of edge length `N`, stored blue fastest: the flat index
`((r*N + g)*N + b)*3 + ch` holds channel `ch` of `(r, g, b)/(N-1)`. -/
def identity_lut (N : Int) : Lut3D F where
  data := fun i =>
    let e := i / 3
    let ch := i % 3
    let b := e % N
    let g := (e / N) % N
    let r := (e / N) / N
    (((if ch = 0 then r else if ch = 1 then g else b : Int) : F)) / ((N - 1 : Int) : F)
  size := N

end Reference

/-! ## Inputs used to instantiate the theorems -/

/-- A bank whose eight tables are all zero. -/
def zero_bank : EmbeddedLUTs ℝ :=
  ⟨fun _ => 0, fun _ => 0, fun _ => 0, fun _ => 0, fun _ => 0, fun _ => 0, fun _ => 0,
   fun _ => 0⟩

/-- A four-component source pixel: 18% grey with alpha 0.37. -/
noncomputable def grey_pixel : Nat → ℝ := fun i => if i = 3 then 0.37 else 0.18

/-- Rec.709 linear input with the three stages disabled. -/
noncomputable def stages_off : FilmPipelineProcessor ℝ :=
  ⟨5, 0, false, 0, 0.8, false, 0, 0.5, false, 0, 0.5⟩

/-- The three stages enabled with blend factors `-0.5`, `0` and `-3`. -/
noncomputable def blends_low : FilmPipelineProcessor ℝ :=
  ⟨5, 0, true, 0, -0.5, true, 0, 0, true, 0, -3⟩

/-- The three stages enabled with the default blend factors of the source. -/
noncomputable def stages_on : FilmPipelineProcessor ℝ :=
  ⟨5, 0, true, 0, 0.8, true, 0, 0.5, true, 0, 0.5⟩

/-- The three stages enabled with blend factors `1`, `2.5` and `1`. -/
noncomputable def blends_high : FilmPipelineProcessor ℝ :=
  ⟨5, 0, true, 0, 1, true, 0, 2.5, true, 0, 1⟩

/-- A black pixel. -/
def black_pixel : Nat → ℝ := fun _ => 0

theorem float3.ext3 {F : Type} {a b : float3 F} (hx : a.x = b.x) (hy : a.y = b.y)
    (hz : a.z = b.z) : a = b := by
  cases a; cases b; simp_all

theorem get_neg_lut_default {F : Type} (E : EmbeddedLUTs F) (choice : Int) (h : choice < 0 ∨ 4 ≤ choice) :
    get_neg_lut E choice = ⟨E.LUT_NEG_CTHULHU, LUT_SIZE⟩ := by
  unfold get_neg_lut
  rw [if_neg (show ¬ choice = 0 by omega), if_neg (show ¬ choice = 1 by omega),
    if_neg (show ¬ choice = 2 by omega), if_neg (show ¬ choice = 3 by omega)]

theorem get_sep_lut_default {F : Type} (E : EmbeddedLUTs F) (choice : Int) (h : choice < 0 ∨ 3 ≤ choice) :
    get_sep_lut E choice = ⟨E.LUT_SEP_HYDRA, LUT_SIZE⟩ := by
  unfold get_sep_lut
  rw [if_neg (show ¬ choice = 0 by omega), if_neg (show ¬ choice = 1 by omega),
    if_neg (show ¬ choice = 2 by omega)]

theorem get_neg_lut_size {F : Type} (E : EmbeddedLUTs F) (choice : Int) :
    (get_neg_lut E choice).size = 33 := by
  unfold get_neg_lut
  split_ifs <;> rfl

theorem get_sep_lut_size {F : Type} (E : EmbeddedLUTs F) (choice : Int) :
    (get_sep_lut E choice).size = 33 := by
  unfold get_sep_lut
  split_ifs <;> rfl

section Lemmas

variable {F : Type} [LinearOrderedField F]

@[simp]
theorem float3.add_x (a b : float3 F) : (a + b).x = a.x + b.x := rfl

@[simp]
theorem float3.add_y (a b : float3 F) : (a + b).y = a.y + b.y := rfl

@[simp]
theorem float3.add_z (a b : float3 F) : (a + b).z = a.z + b.z := rfl

@[simp]
theorem float3.sub_x (a b : float3 F) : (a - b).x = a.x - b.x := rfl

@[simp]
theorem float3.sub_y (a b : float3 F) : (a - b).y = a.y - b.y := rfl

@[simp]
theorem float3.sub_z (a b : float3 F) : (a - b).z = a.z - b.z := rfl

@[simp]
theorem float3.smul_x (a : float3 F) (s : F) : (a * s).x = a.x * s := rfl

@[simp]
theorem float3.smul_y (a : float3 F) (s : F) : (a * s).y = a.y * s := rfl

@[simp]
theorem float3.smul_z (a : float3 F) (s : F) : (a * s).z = a.z * s := rfl

/-! ### Clamping and blending -/

theorem clampf_idem (v : F) : clampf (clampf v 0 1) 0 1 = clampf v 0 1 := by
  unfold clampf
  have h0 : (0 : F) ≤ min (max v 0) 1 := le_min (le_max_right _ _) zero_le_one
  rw [max_eq_left h0, min_eq_left (min_le_right _ _)]

theorem clamp3_idem (v : float3 F) : clamp3 (clamp3 v 0 1) 0 1 = clamp3 v 0 1 := by
  simp only [clamp3, clampf_idem]

theorem clampf_of_nonpos (t : F) (h : t ≤ 0) : clampf t 0 1 = 0 := by
  unfold clampf
  rw [max_eq_right h, min_eq_left zero_le_one]

theorem lerp3_zero (a b : float3 F) : lerp3 a b 0 = a := by
  unfold lerp3
  apply float3.ext3 <;> simp

theorem clampf_of_one_le (t : F) (h : 1 ≤ t) : clampf t 0 1 = 1 := by
  unfold clampf
  rw [max_eq_left (le_trans zero_le_one h), min_eq_right h]

theorem lerp3_one (a b : float3 F) : lerp3 a b 1 = b := by
  unfold lerp3
  apply float3.ext3 <;> simp

/-- Blending a triple with a multiple of itself multiplies it by one scalar. -/
theorem lerp3_self_smul (a : float3 F) (s t : F) :
    lerp3 a (a * s) t = a * (1 + t * (s - 1)) := by
  unfold lerp3
  apply float3.ext3 <;> simp <;> ring

/-! ### Matrix inverse -/

theorem inv3_mul_cancel_left (A : Mat3 F) (h : det3 A ≠ 0) (v : F × F × F) :
    mat_vec (inv3 A) (mat_vec A v) = v := by
  obtain ⟨a, b, c⟩ := v
  have hi : det3 A * (1 / det3 A) = 1 := mul_one_div_cancel h
  simp only [inv3, if_neg h, mat_vec]
  generalize 1 / det3 A = k at hi
  simp only [det3] at hi
  refine Prod.ext ?_ (Prod.ext ?_ ?_)
  · show _ = a
    linear_combination a * hi
  · show _ = b
    linear_combination b * hi
  · show _ = c
    linear_combination c * hi

theorem inv3_mul_cancel_right (A : Mat3 F) (h : det3 A ≠ 0) (v : F × F × F) :
    mat_vec A (mat_vec (inv3 A) v) = v := by
  obtain ⟨a, b, c⟩ := v
  have hi : det3 A * (1 / det3 A) = 1 := mul_one_div_cancel h
  simp only [inv3, if_neg h, mat_vec]
  generalize 1 / det3 A = k at hi
  simp only [det3] at hi
  refine Prod.ext ?_ (Prod.ext ?_ ?_)
  · show _ = a
    linear_combination a * hi
  · show _ = b
    linear_combination b * hi
  · show _ = c
    linear_combination c * hi

theorem det3_davinciwg_ne_zero : det3 (matrix_davinciwg_to_xyz : Mat3 F) ≠ 0 := by
  norm_num [det3, matrix_davinciwg_to_xyz]

theorem det3_rec709_ne_zero : det3 (matrix_rec709_to_xyz : Mat3 F) ≠ 0 := by
  norm_num [det3, matrix_rec709_to_xyz]

theorem inputGamutToXYZ_out_of_range (idx : Int) (h : idx < 0 ∨ 16 ≤ idx) :
    (inputGamutToXYZ idx : Mat3 F) = mat_identity := by
  unfold inputGamutToXYZ
  rw [if_neg (show ¬ idx = 0 by omega),
    if_neg (show ¬ idx = 1 by omega),
    if_neg (show ¬ idx = 2 by omega),
    if_neg (show ¬ idx = 3 by omega),
    if_neg (show ¬ idx = 4 by omega),
    if_neg (show ¬ idx = 5 by omega),
    if_neg (show ¬ idx = 6 by omega),
    if_neg (show ¬ idx = 7 by omega),
    if_neg (show ¬ idx = 8 by omega),
    if_neg (show ¬ idx = 9 by omega),
    if_neg (show ¬ idx = 10 by omega),
    if_neg (show ¬ idx = 11 by omega),
    if_neg (show ¬ idx = 12 by omega),
    if_neg (show ¬ idx = 13 by omega),
    if_neg (show ¬ idx = 14 by omega),
    if_neg (show ¬ idx = 15 by omega)]

theorem mat_apply_inv3_left (A : Mat3 F) (h : det3 A ≠ 0) (v : float3 F) :
    mat_apply (inv3 A) (mat_apply A v) = v := by
  have := inv3_mul_cancel_left A h (v.x, v.y, v.z)
  cases v
  simp only [mat_apply] at *
  rw [this]

theorem mat_apply_inv3_right (A : Mat3 F) (h : det3 A ≠ 0) (v : float3 F) :
    mat_apply A (mat_apply (inv3 A) v) = v := by
  have := inv3_mul_cancel_right A h (v.x, v.y, v.z)
  cases v
  simp only [mat_apply] at *
  rw [this]

/-! ### The sampler -/

/-- The flat index of `lut_fetch` determines the three coordinates. -/
theorem flat_index_decode (N r g b : Int) (hN : 0 < N) (hg : 0 ≤ g ∧ g < N)
    (hb : 0 ≤ b ∧ b < N) :
    ((r * N + g) * N + b) % N = b ∧ (((r * N + g) * N + b) / N) % N = g
      ∧ (((r * N + g) * N + b) / N) / N = r := by
  have hN0 : N ≠ 0 := ne_of_gt hN
  have e1 : ((r * N + g) * N + b) / N = r * N + g := by
    rw [add_comm, Int.add_mul_ediv_right _ _ hN0, Int.ediv_eq_zero_of_lt hb.1 hb.2, zero_add]
  have e2 : (r * N + g) / N = r := by
    rw [add_comm, Int.add_mul_ediv_right _ _ hN0, Int.ediv_eq_zero_of_lt hg.1 hg.2, zero_add]
  refine ⟨?_, ?_, ?_⟩
  · rw [add_comm, Int.add_mul_emod_self, Int.emod_eq_of_lt hb.1 hb.2]
  · rw [e1, add_comm, Int.add_mul_emod_self, Int.emod_eq_of_lt hg.1 hg.2]
  · rw [e1, e2]

theorem std_clamp_mem (v N : Int) (hN : 0 < N) :
    0 ≤ std_clamp v 0 (N - 1) ∧ std_clamp v 0 (N - 1) < N := by
  unfold std_clamp
  split_ifs <;> constructor <;> omega

theorem luma_smul (v : float3 F) (s : F) : luma_rec709 (v * s) = luma_rec709 v * s := by
  simp only [luma_rec709, float3.smul_x, float3.smul_y, float3.smul_z]
  ring

/-- Across an `x` face: the formula of a cell at `dx = 1` is the formula of the next cell at
`dx = 0`; `e1bc` are the far corners of the next cell. -/
theorem tetra_face_x (c000 c100 c010 c001 c110 c101 c011 c111 e100 e110 e101 e111 : float3 F)
    (dy dz : F) (hy : 0 ≤ dy ∧ dy ≤ 1) (hz : 0 ≤ dz ∧ dz ≤ 1) :
    tetra_interp c000 c100 c010 c001 c110 c101 c011 c111 1 dy dz
      = tetra_interp c100 e100 c110 c101 e110 e101 c111 e111 0 dy dz := by
  obtain ⟨hy0, hy1⟩ := hy
  obtain ⟨hz0, hz1⟩ := hz
  unfold tetra_interp
  split_ifs <;>
    first
      | (exfalso; linarith)
      | (apply float3.ext3 <;> simp only [float3.add_x, float3.add_y, float3.add_z,
          float3.sub_x, float3.sub_y, float3.sub_z, float3.smul_x, float3.smul_y,
          float3.smul_z] <;>
          first
            | ring1
            | (have e1 : dy = 0 := by linarith
               have e2 : dz = 0 := by linarith
               subst e1; subst e2; ring1)
            | (have e1 : dy = 0 := by linarith
               subst e1; ring1)
            | (have e2 : dz = 0 := by linarith
               subst e2; ring1))

theorem tetra_face_y (c000 c100 c010 c001 c110 c101 c011 c111 e010 e110 e011 e111 : float3 F)
    (dx dz : F) (hx : 0 ≤ dx ∧ dx ≤ 1) (hz : 0 ≤ dz ∧ dz ≤ 1) :
    tetra_interp c000 c100 c010 c001 c110 c101 c011 c111 dx 1 dz
      = tetra_interp c010 c110 e010 c011 e110 c111 e011 e111 dx 0 dz := by
  obtain ⟨hx0, hx1⟩ := hx
  obtain ⟨hz0, hz1⟩ := hz
  unfold tetra_interp
  split_ifs <;>
    first
      | (exfalso; linarith)
      | (apply float3.ext3 <;> simp only [float3.add_x, float3.add_y, float3.add_z,
          float3.sub_x, float3.sub_y, float3.sub_z, float3.smul_x, float3.smul_y,
          float3.smul_z] <;>
          first
            | ring1
            | (have e1 : dx = 1 := by linarith
               have e2 : dz = 0 := by linarith
               subst e1; subst e2; ring1)
            | (have e1 : dx = 1 := by linarith
               have e2 : dz = 1 := by linarith
               subst e1; subst e2; ring1)
            | (have e1 : dx = 0 := by linarith
               have e2 : dz = 0 := by linarith
               subst e1; subst e2; ring1)
            | (have e1 : dx = 1 := by linarith
               subst e1; ring1)
            | (have e1 : dx = 0 := by linarith
               subst e1; ring1)
            | (have e2 : dz = 0 := by linarith
               subst e2; ring1))

theorem tetra_face_z (c000 c100 c010 c001 c110 c101 c011 c111 e001 e101 e011 e111 : float3 F)
    (dx dy : F) (hx : 0 ≤ dx ∧ dx ≤ 1) (hy : 0 ≤ dy ∧ dy ≤ 1) :
    tetra_interp c000 c100 c010 c001 c110 c101 c011 c111 dx dy 1
      = tetra_interp c001 c101 c011 e001 c111 e101 e011 e111 dx dy 0 := by
  obtain ⟨hx0, hx1⟩ := hx
  obtain ⟨hy0, hy1⟩ := hy
  unfold tetra_interp
  split_ifs <;>
    first
      | (exfalso; linarith)
      | (apply float3.ext3 <;> simp only [float3.add_x, float3.add_y, float3.add_z,
          float3.sub_x, float3.sub_y, float3.sub_z, float3.smul_x, float3.smul_y,
          float3.smul_z] <;>
          first
            | ring1
            | (have e1 : dx = 1 := by linarith
               have e2 : dy = 1 := by linarith
               subst e1; subst e2; ring1)
            | (have e1 : dx = 0 := by linarith
               have e2 : dy = 0 := by linarith
               subst e1; subst e2; ring1)
            | (have e1 : dx = 1 := by linarith
               have e2 : dy = 0 := by linarith
               subst e1; subst e2; ring1)
            | (have e1 : dx = 0 := by linarith
               have e2 : dy = 1 := by linarith
               subst e1; subst e2; ring1)
            | (have e1 : dx = 1 := by linarith
               subst e1; ring1)
            | (have e1 : dx = 0 := by linarith
               subst e1; ring1)
            | (have e2 : dy = 0 := by linarith
               subst e2; ring1)
            | (have e2 : dy = 1 := by linarith
               subst e2; ring1))

theorem std_clamp_in_range (v N : Int) (h : 0 ≤ v ∧ v < N) : std_clamp v 0 (N - 1) = v := by
  unfold std_clamp
  split_ifs <;> omega

theorem flat_index_exact_bounds (N r g b : Int) (hN : 1 ≤ N) :
    0 ≤ flat_index_exact N r g b ∧ flat_index_exact N r g b + 2 < 3 * N ^ 3 := by
  obtain ⟨r0, r1⟩ := std_clamp_mem r N (by omega)
  obtain ⟨g0, g1⟩ := std_clamp_mem g N (by omega)
  obtain ⟨b0, b1⟩ := std_clamp_mem b N (by omega)
  unfold flat_index_exact
  generalize std_clamp r 0 (N - 1) = r' at *
  generalize std_clamp g 0 (N - 1) = g' at *
  generalize std_clamp b 0 (N - 1) = b' at *
  have hN0 : (0 : Int) ≤ N := by omega
  have h1 : 0 ≤ r' * N := mul_nonneg r0 hN0
  have h2 : r' * N ≤ (N - 1) * N := mul_le_mul_of_nonneg_right (by omega) hN0
  have h3 : 0 ≤ (r' * N + g') * N := mul_nonneg (by omega) hN0
  have h4 : (r' * N + g') * N ≤ ((N - 1) * N + (N - 1)) * N :=
    mul_le_mul_of_nonneg_right (by omega) hN0
  have h5 : ((N - 1) * N + (N - 1)) * N = N ^ 3 - N := by ring
  constructor
  · omega
  · omega

theorem flat_index_exact_injective (N r g b r2 g2 b2 : Int) (hN : 1 ≤ N)
    (hr : 0 ≤ r ∧ r < N) (hg : 0 ≤ g ∧ g < N) (hb : 0 ≤ b ∧ b < N)
    (hr2 : 0 ≤ r2 ∧ r2 < N) (hg2 : 0 ≤ g2 ∧ g2 < N) (hb2 : 0 ≤ b2 ∧ b2 < N)
    (h : flat_index_exact N r g b = flat_index_exact N r2 g2 b2) :
    r = r2 ∧ g = g2 ∧ b = b2 := by
  unfold flat_index_exact at h
  rw [std_clamp_in_range r N hr, std_clamp_in_range g N hg, std_clamp_in_range b N hb,
    std_clamp_in_range r2 N hr2, std_clamp_in_range g2 N hg2, std_clamp_in_range b2 N hb2] at h
  have he : (r * N + g) * N + b = (r2 * N + g2) * N + b2 := by omega
  obtain ⟨a1, a2, a3⟩ := flat_index_decode N r g b (by omega) hg hb
  obtain ⟨c1, c2, c3⟩ := flat_index_decode N r2 g2 b2 (by omega) hg2 hb2
  rw [he] at a1 a2 a3
  exact ⟨by rw [← a3, c3], by rw [← a2, c2], by rw [← a1, c1]⟩

variable [FloorRing F]

/-- The sampler is the interpolation step applied to the eight fetched corners and the three
fractional offsets. -/
theorem lut_sample_tetra_eq (lut : Lut3D F) (inp : float3 F) :
    lut_sample_tetra lut inp =
      tetra_interp
        (lut_fetch lut (cell_index lut inp.x) (cell_index lut inp.y) (cell_index lut inp.z))
        (lut_fetch lut (cell_index lut inp.x + 1) (cell_index lut inp.y) (cell_index lut inp.z))
        (lut_fetch lut (cell_index lut inp.x) (cell_index lut inp.y + 1) (cell_index lut inp.z))
        (lut_fetch lut (cell_index lut inp.x) (cell_index lut inp.y) (cell_index lut inp.z + 1))
        (lut_fetch lut (cell_index lut inp.x + 1) (cell_index lut inp.y + 1)
          (cell_index lut inp.z))
        (lut_fetch lut (cell_index lut inp.x + 1) (cell_index lut inp.y)
          (cell_index lut inp.z + 1))
        (lut_fetch lut (cell_index lut inp.x) (cell_index lut inp.y + 1)
          (cell_index lut inp.z + 1))
        (lut_fetch lut (cell_index lut inp.x + 1) (cell_index lut inp.y + 1)
          (cell_index lut inp.z + 1))
        (frac_offset lut inp.x) (frac_offset lut inp.y) (frac_offset lut inp.z) := rfl

/-- The Negative stage, when enabled, blends `dwg_di` with `dwg_di * scale`. -/
theorem after_neg_enabled (L : Libm F) (E : EmbeddedLUTs F) (P : FilmPipelineProcessor F)
    (nComp : Int) (srcPix : Nat → F) (he : P.negEnable = true) :
    (pixel_locals L E P nComp srcPix).after_neg
      = lerp3 (pixel_locals L E P nComp srcPix).dwg_di
          ((pixel_locals L E P nComp srcPix).dwg_di
            * neg_scale (get_neg_lut E P.negChoice) (pixel_locals L E P nComp srcPix).dwg_di)
          (clampf P.negBlend 0 1) := by
  simp only [pixel_locals, he, if_true, neg_scale]

theorem out_rgb_stages_disabled {F : Type} [LinearOrderedField F] [FloorRing F]
    (L : Libm F) (E : EmbeddedLUTs F) (P : FilmPipelineProcessor F)
    (nComp : Int) (srcPix : Nat → F)
    (hn : P.negEnable = false) (hs : P.sepEnable = false) (hp : P.printEnable = false) :
    (pixel_locals L E P nComp srcPix).out_rgb
        = dwg_di_to_rec709_24 L
            (input_to_dwg_intermediate L ⟨srcPix 0, srcPix 1, srcPix 2⟩ P.inGamut P.inOetf) := by
  simp [pixel_locals, hn, hs, hp]

theorem frac_offset_mem (lut : Lut3D F) (v : F) :
    0 ≤ frac_offset lut v ∧ frac_offset lut v < 1 := by
  unfold frac_offset cell_index
  constructor
  · exact sub_nonneg.mpr (Int.floor_le _)
  · have := Int.lt_floor_add_one (grid_pos lut v)
    linarith

theorem flat_index_exact_strides (N r g b : Int) (hr : 0 ≤ r ∧ r < N) (hg : 0 ≤ g ∧ g < N)
    (hb : 0 ≤ b ∧ b < N) :
    (b + 1 < N → flat_index_exact N r g (b + 1) = flat_index_exact N r g b + 3)
      ∧ (g + 1 < N → flat_index_exact N r (g + 1) b = flat_index_exact N r g b + 3 * N)
      ∧ (r + 1 < N →
        flat_index_exact N (r + 1) g b = flat_index_exact N r g b + 3 * N * N) := by
  unfold flat_index_exact
  rw [std_clamp_in_range r N hr, std_clamp_in_range g N hg, std_clamp_in_range b N hb]
  refine ⟨?_, ?_, ?_⟩
  · intro h
    rw [std_clamp_in_range (b + 1) N ⟨by omega, h⟩]
    ring
  · intro h
    rw [std_clamp_in_range (g + 1) N ⟨by omega, h⟩]
    ring
  · intro h
    rw [std_clamp_in_range (r + 1) N ⟨by omega, h⟩]
    ring

theorem wrap_int32_of_range (x : Int) (h0 : -2147483648 ≤ x) (h1 : x < 2147483648) :
    wrap_int32 x = x := by
  unfold wrap_int32
  omega

/-- For a table of edge length at most `894` no step of the index computation overflows. -/
theorem flat_index_no_wrap (N r g b : Int) (hN : 1 ≤ N) (hM : N ≤ 894) :
    flat_index N r g b = flat_index_exact N r g b := by
  obtain ⟨r0, r1⟩ := std_clamp_mem r N (by omega)
  obtain ⟨g0, g1⟩ := std_clamp_mem g N (by omega)
  obtain ⟨b0, b1⟩ := std_clamp_mem b N (by omega)
  unfold flat_index flat_index_exact
  simp only []
  rw [wrap_int32_of_range (N - 1) (by omega) (by omega)]
  generalize std_clamp r 0 (N - 1) = r' at *
  generalize std_clamp g 0 (N - 1) = g' at *
  generalize std_clamp b 0 (N - 1) = b' at *
  have hN0 : (0 : Int) ≤ N := by omega
  have h1 : 0 ≤ r' * N := mul_nonneg r0 hN0
  have h2 : r' * N ≤ 893 * 894 := mul_le_mul (by omega) hM hN0 (by norm_num)
  rw [wrap_int32_of_range (r' * N) (by omega) (by omega)]
  rw [wrap_int32_of_range (r' * N + g') (by omega) (by omega)]
  have h3 : 0 ≤ (r' * N + g') * N := mul_nonneg (by omega) hN0
  have h4 : (r' * N + g') * N ≤ (893 * 894 + 893) * 894 :=
    mul_le_mul (by omega) hM hN0 (by norm_num)
  rw [wrap_int32_of_range ((r' * N + g') * N) (by omega) (by omega)]
  rw [wrap_int32_of_range ((r' * N + g') * N + b') (by omega) (by omega)]
  rw [wrap_int32_of_range (((r' * N + g') * N + b') * 3) (by omega) (by omega)]

end Lemmas

/-! ### Bounds on the exponential for the DaVinci Intermediate round trip -/

theorem exp_taylor6 (x : ℝ) (h0 : 0 ≤ x) (h1 : x ≤ 1) :
    Real.exp x ≤ 1 + x + x ^ 2 / 2 + x ^ 3 / 6 + x ^ 4 / 24 + x ^ 5 / 120 + x ^ 6 * 7 / 4320 := by
  have h := Real.exp_bound' h0 h1 (n := 6) (by norm_num)
  simp only [Finset.sum_range_succ, Finset.sum_range_zero, Nat.factorial] at h
  norm_num at h
  linarith

theorem exp_le_upper_gap : Real.exp 0.259192526 ≤ 128 * (0.00262409 + 0.0075) := by
  refine le_trans (exp_taylor6 _ (by norm_num) (by norm_num)) ?_
  norm_num

theorem exp_le_breakpoint :
    Real.exp 0.259190746 ≤ 128 * (0.002624088021941948 + 0.0075) := by
  refine le_trans (exp_taylor6 _ (by norm_num) (by norm_num)) ?_
  norm_num

/-- A lower bound on `log w / log 2` from an upper bound on an exponential. -/
theorem log2_ge_of_exp_le (w q r : ℝ) (hw : 0 < w) (hq : 0 ≤ q) (hr : q * 0.6931471808 ≤ r)
    (he : Real.exp r ≤ 128 * w) : q - 7 ≤ Real.log w / Real.log 2 := by
  have hl2 : 0 < Real.log 2 := Real.log_pos (by norm_num)
  have hl2u : Real.log 2 < 0.6931471808 := Real.log_two_lt_d9
  rw [le_div_iff₀ hl2]
  have h128 : Real.log (128 * w) = 7 * Real.log 2 + Real.log w := by
    rw [Real.log_mul (by norm_num) (ne_of_gt hw)]
    have : (128 : ℝ) = 2 ^ 7 := by norm_num
    rw [this, Real.log_pow]
    norm_num
  have h1 : r ≤ Real.log (128 * w) := by
    rw [Real.le_log_iff_exp_le (by positivity)]
    exact he
  have h2 : q * Real.log 2 ≤ r := le_trans (by nlinarith) hr
  linarith

/-- Above the gap the DaVinci Intermediate encoding lies above the decode breakpoint. -/
theorem davinci_encode_gt (y : ℝ) (h : 0.00262409 < y) :
    0.02740668 < 0.07329248 * (Real.log (y + 0.0075) / Real.log 2 + 7) := by
  have hl2 : 0 < Real.log 2 := Real.log_pos (by norm_num)
  have hlog : Real.log (0.00262409 + 0.0075) < Real.log (y + 0.0075) :=
    Real.log_lt_log (by norm_num) (by linarith)
  have hq := log2_ge_of_exp_le (0.00262409 + 0.0075) (0.02740668 / 0.07329248)
    0.259192526 (by norm_num) (by norm_num) (by norm_num) exp_le_upper_gap
  have h2 : Real.log (0.00262409 + 0.0075) / Real.log 2
      < Real.log (y + 0.0075) / Real.log 2 := div_lt_div_of_pos_right hlog hl2
  have h3 : 0.02740668 / 0.07329248 - 7 < Real.log (y + 0.0075) / Real.log 2 :=
    lt_of_le_of_lt hq h2
  have h4 : (0.02740668 : ℝ) = 0.07329248 * (0.02740668 / 0.07329248 - 7 + 7) := by
    norm_num
  nlinarith

/-- Above the gap the DaVinci Intermediate round trip is exact. -/
theorem davinci_round_trip_exact (y : ℝ) (h : 0.00262409 < y) :
    decode_davinci_intermediate realLibm (encode_davinci_intermediate realLibm y) = y := by
  have hl2 : 0 < Real.log 2 := Real.log_pos (by norm_num)
  have hw : 0 < y + 0.0075 := by linarith
  have hb : ¬ y ≤ 0.002624088021941948 := by
    push_neg
    exact lt_trans (by norm_num) h
  have hmax : max (y + 0.0075) 1e-12 = y + 0.0075 := max_eq_left (by norm_num; linarith)
  have hc := davinci_encode_gt y h
  unfold decode_davinci_intermediate oetf_davinci_intermediate encode_davinci_intermediate
  simp only [_exp2f, _log2f, realLibm]
  rw [if_neg hb, hmax, if_neg (not_le.mpr hc)]
  have h5 : (0.07329248 * (Real.log (y + 0.0075) / Real.log 2 + 7) / 0.07329248 - 7)
      * Real.log 2 = Real.log (y + 0.0075) := by
    field_simp
    ring
  rw [h5, Real.exp_log hw]
  ring

theorem grey_dwg_lin_large :
    0.00262409 < (mat_apply (xyzToDaVinciWG : Mat3 ℝ)
        (mat_apply (inputGamutToXYZ 5) (⟨0.18, 0.18, 0.18⟩ : float3 ℝ))).x
    ∧ 0.00262409 < (mat_apply (xyzToDaVinciWG : Mat3 ℝ)
        (mat_apply (inputGamutToXYZ 5) (⟨0.18, 0.18, 0.18⟩ : float3 ℝ))).y
    ∧ 0.00262409 < (mat_apply (xyzToDaVinciWG : Mat3 ℝ)
        (mat_apply (inputGamutToXYZ 5) (⟨0.18, 0.18, 0.18⟩ : float3 ℝ))).z := by
  have h5 : (inputGamutToXYZ 5 : Mat3 ℝ) = matrix_rec709_to_xyz := rfl
  rw [h5]
  simp only [xyzToDaVinciWG, inv3, if_neg det3_davinciwg_ne_zero, mat_apply, mat_vec]
  norm_num [det3, matrix_davinciwg_to_xyz, matrix_rec709_to_xyz]

/-- Above the gap the DaVinci Intermediate encoding is above `0.02740668`. -/
theorem encode_davinci_gt (y : ℝ) (h : 0.00262409 < y) :
    0.02740668 < encode_davinci_intermediate realLibm y := by
  have hb : ¬ y ≤ 0.002624088021941948 := by
    push_neg
    exact lt_trans (by norm_num) h
  have hmax : max (y + 0.0075) 1e-12 = y + 0.0075 := max_eq_left (by norm_num; linarith)
  have hc := davinci_encode_gt y h
  unfold encode_davinci_intermediate
  simp only [_log2f, realLibm]
  rw [if_neg hb, hmax]
  exact hc

theorem grey_luma_large :
    luma_rec709 (pixel_locals realLibm zero_bank blends_high 4 grey_pixel).dwg_di > 1e-6 := by
  obtain ⟨hx, hy, hz⟩ := grey_dwg_lin_large
  have ex := encode_davinci_gt _ hx
  have ey := encode_davinci_gt _ hy
  have ez := encode_davinci_gt _ hz
  have hd : ∀ x : ℝ, decode_input_oetf realLibm 0 x = x := fun x => rfl
  have hg : ∀ n : Nat, n ≠ 3 → grey_pixel n = 0.18 := by
    intro n hn
    simp [grey_pixel, hn]
  have e : (pixel_locals realLibm zero_bank blends_high 4 grey_pixel).dwg_di
      = input_to_dwg_intermediate realLibm ⟨0.18, 0.18, 0.18⟩ 5 0 := by
    simp only [pixel_locals, blends_high, hg 0 (by decide), hg 1 (by decide), hg 2 (by decide)]
  rw [e]
  simp only [input_to_dwg_intermediate, hd, luma_rec709]
  linarith

/-! ### Monotonicity of the decode curves -/

theorem decode_input_oetf_default {F : Type} [LinearOrderedField F] (L : Libm F) (idx : Int)
    (h : idx < 0 ∨ 10 ≤ idx) (x : F) : decode_input_oetf L idx x = x := by
  unfold decode_input_oetf
  by_cases h0 : idx = 0
  · rw [if_pos h0]
  · rw [if_neg h0, if_neg (show ¬ idx = 1 by omega), if_neg (show ¬ idx = 2 by omega),
      if_neg (show ¬ idx = 3 by omega), if_neg (show ¬ idx = 4 by omega),
      if_neg (show ¬ idx = 5 by omega), if_neg (show ¬ idx = 6 by omega),
      if_neg (show ¬ idx = 7 by omega), if_neg (show ¬ idx = 8 by omega),
      if_neg (show ¬ idx = 9 by omega)]

/-- Partial sums of the series of `log (1 + x) - log (1 - x)` are lower bounds. -/
theorem log_ratio_ge_partial (x : ℝ) (h0 : 0 ≤ x) (h1 : x < 1) (n : ℕ) :
    ∑ k ∈ Finset.range n, 2 * (1 / (2 * (k : ℝ) + 1)) * x ^ (2 * k + 1)
      ≤ Real.log (1 + x) - Real.log (1 - x) := by
  have hs := Real.hasSum_log_sub_log_of_abs_lt_one (x := x) (by rw [abs_of_nonneg h0]; exact h1)
  refine sum_le_hasSum (Finset.range n) ?_ hs
  intro k _
  positivity

theorem log_two_lower : 0.693147180559944 ≤ Real.log 2 := by
  have h := log_ratio_ge_partial (1 / 3) (by norm_num) (by norm_num) 14
  have e : Real.log (1 + 1 / 3) - Real.log (1 - 1 / 3) = Real.log 2 := by
    rw [← Real.log_div (by norm_num) (by norm_num)]
    norm_num
  rw [e] at h
  refine le_trans ?_ h
  simp only [Finset.sum_range_succ, Finset.sum_range_zero]
  norm_num

theorem log_five_quarters_lower : 0.223143551314209 ≤ Real.log (5 / 4) := by
  have h := log_ratio_ge_partial (1 / 9) (by norm_num) (by norm_num) 7
  have e : Real.log (1 + 1 / 9) - Real.log (1 - 1 / 9) = Real.log (5 / 4) := by
    rw [← Real.log_div (by norm_num) (by norm_num)]
    norm_num
  rw [e] at h
  refine le_trans ?_ h
  simp only [Finset.sum_range_succ, Finset.sum_range_zero]
  norm_num

theorem log_ten_lower : 2.302585092994041 ≤ Real.log 10 := by
  have e : Real.log 10 = 3 * Real.log 2 + Real.log (5 / 4) := by
    have : (10 : ℝ) = 2 ^ 3 * (5 / 4) := by norm_num
    rw [this, Real.log_mul (by norm_num) (by norm_num), Real.log_pow]
    norm_num
  rw [e]
  have h2 := log_two_lower
  have h5 := log_five_quarters_lower
  linarith

/-- A lower bound on a power of ten from a lower bound on an exponential. -/
theorem ten_rpow_ge (e u V : ℝ) (m : ℕ) (hu : u ≤ (e + m) * 2.302585092994041)
    (hem : 0 ≤ e + m) (hV : V * 10 ^ m ≤ Real.exp u) : V ≤ (10 : ℝ) ^ e := by
  have h10 : (0 : ℝ) < 10 := by norm_num
  have h1 : u ≤ (e + m) * Real.log 10 :=
    le_trans hu (mul_le_mul_of_nonneg_left log_ten_lower hem)
  have h2 : Real.exp u ≤ (10 : ℝ) ^ (e + m) := by
    rw [Real.rpow_def_of_pos h10, mul_comm]
    exact Real.exp_le_exp.mpr h1
  have h3 : (10 : ℝ) ^ (e + (m : ℝ)) = (10 : ℝ) ^ e * 10 ^ m := by
    rw [Real.rpow_add h10, Real.rpow_natCast]
  rw [h3] at h2
  have hp : (0 : ℝ) < 10 ^ m := by positivity
  exact le_of_mul_le_mul_right (le_trans hV h2) hp

/-- A lower bound on a power of two from a lower bound on an exponential. -/
theorem two_exp_ge (e u V : ℝ) (m : ℕ) (hu : u ≤ (e + m) * 0.693147180559944)
    (hem : 0 ≤ e + m) (hV : V * 2 ^ m ≤ Real.exp u) : V ≤ Real.exp (e * Real.log 2) := by
  have h1 : u ≤ (e + m) * Real.log 2 :=
    le_trans hu (mul_le_mul_of_nonneg_left log_two_lower hem)
  have h2 : Real.exp u ≤ Real.exp ((e + m) * Real.log 2) := Real.exp_le_exp.mpr h1
  have h3 : Real.exp ((e + m) * Real.log 2) = Real.exp (e * Real.log 2) * 2 ^ m := by
    rw [add_mul, Real.exp_add, Real.exp_nat_mul, Real.exp_log (by norm_num)]
  rw [h3] at h2
  have hp : (0 : ℝ) < 2 ^ m := by positivity
  exact le_of_mul_le_mul_right (le_trans hV h2) hp

/-! ### Gluing two monotone branches -/

theorem davinci_join :
    (0.02740668 : ℝ) / 10.44426855 ≤ _exp2f realLibm (0.02740668 / 0.07329248 - 7) - 0.0075 := by
  have hV : (0.02740668 / 10.44426855 + 0.0075) * 2 ^ 7 ≤ Real.exp 0.2591925252 := by
    have h := Real.sum_le_exp_of_nonneg (x := 0.2591925252) (by norm_num) 8
    refine le_trans ?_ h
    simp only [Finset.sum_range_succ, Finset.sum_range_zero, Nat.factorial]
    norm_num
  have := two_exp_ge (0.02740668 / 0.07329248 - 7) 0.2591925252
    (0.02740668 / 10.44426855 + 0.0075) 7 (by norm_num) (by norm_num) hV
  simp only [_exp2f, realLibm]
  linarith

theorem logc3_join :
    ((5.367655 * 0.010591 + 0.092809 : ℝ) - 0.092809) / 5.367655
      ≤ (_exp10f realLibm ((5.367655 * 0.010591 + 0.092809 - 0.385537) / 0.247190) - 0.052272)
        / 5.555556 := by
  have hV : (0.010591 * 5.555556 + 0.052272 : ℝ) * 10 ^ 1 ≤ Real.exp 0.10536088 := by
    have h := Real.sum_le_exp_of_nonneg (x := 0.10536088) (by norm_num) 5
    refine le_trans ?_ h
    simp only [Finset.sum_range_succ, Finset.sum_range_zero, Nat.factorial]
    norm_num
  have := ten_rpow_ge ((5.367655 * 0.010591 + 0.092809 - 0.385537) / 0.247190) 0.10536088
    (0.010591 * 5.555556 + 0.052272) 1 (by norm_num) (by norm_num) hV
  simp only [_exp10f, realLibm]
  have e : ((5.367655 * 0.010591 + 0.092809 : ℝ) - 0.092809) / 5.367655 = 0.010591 := by
    norm_num
  rw [e, le_div_iff₀ (by norm_num)]
  linarith

theorem vlog_join :
    ((0.181 : ℝ) - 0.125) / 5.6
      ≤ _exp10f realLibm ((0.181 - 0.598206) / 0.241514) - 0.00873 := by
  have hV : (0.01 + 0.00873 : ℝ) * 10 ^ 2 ≤ Real.exp 0.62754439 := by
    have h := Real.sum_le_exp_of_nonneg (x := 0.62754439) (by norm_num) 8
    refine le_trans ?_ h
    simp only [Finset.sum_range_succ, Finset.sum_range_zero, Nat.factorial]
    norm_num
  have := ten_rpow_ge ((0.181 - 0.598206) / 0.241514) 0.62754439
    (0.01 + 0.00873) 2 (by norm_num) (by norm_num) hV
  simp only [_exp10f, realLibm]
  have e : ((0.181 : ℝ) - 0.125) / 5.6 = 0.01 := by norm_num
  rw [e]
  linarith

theorem slog3_join :
    ((171.2102946929 / 1023 : ℝ) * 1023 - 95) * 0.01125 / (171.2102946929 - 95)
      ≤ _exp10f realLibm (((171.2102946929 / 1023) * 1023 - 420) / 261.5) * (0.18 + 0.01)
        - 0.01 := by
  have hV : ((0.01125 + 0.01) / (0.18 + 0.01) : ℝ) * 10 ^ 1 ≤ Real.exp 0.111917916204 := by
    have h := Real.sum_le_exp_of_nonneg (x := 0.111917916204) (by norm_num) 9
    refine le_trans ?_ h
    simp only [Finset.sum_range_succ, Finset.sum_range_zero, Nat.factorial]
    norm_num
  have := ten_rpow_ge (((171.2102946929 / 1023) * 1023 - 420) / 261.5) 0.111917916204
    ((0.01125 + 0.01) / (0.18 + 0.01)) 1 (by norm_num) (by norm_num) hV
  simp only [_exp10f, realLibm]
  have e : ((171.2102946929 / 1023 : ℝ) * 1023 - 95) * 0.01125 / (171.2102946929 - 95)
      = 0.01125 := by norm_num
  rw [e]
  rw [div_le_iff₀ (by norm_num)] at this
  linarith

theorem flog2_join :
    ((0.100686685370811 : ℝ) - 0.092864) / 8.799461
      ≤ _exp10f realLibm ((0.100686685370811 - 0.384316) / 0.245281) / 5.555556
        - 0.064829 / 5.555556 := by
  have hV : ((((0.100686685370811 : ℝ) - 0.092864) / 8.799461 + 0.064829 / 5.555556)
      * 5.555556) * 10 ^ 2 ≤ Real.exp 1.94258877 := by
    have h := Real.sum_le_exp_of_nonneg (x := 1.94258877) (by norm_num) 13
    refine le_trans ?_ h
    simp only [Finset.sum_range_succ, Finset.sum_range_zero, Nat.factorial]
    norm_num
  have := ten_rpow_ge ((0.100686685370811 - 0.384316) / 0.245281) 1.94258877
    ((((0.100686685370811 : ℝ) - 0.092864) / 8.799461 + 0.064829 / 5.555556) * 5.555556) 2
    (by norm_num) (by norm_num) hV
  simp only [_exp10f, realLibm]
  rw [le_sub_iff_add_le, le_div_iff₀ (by norm_num)]
  exact this

/-- With its literals read as decimal numbers T-Log steps down across its breakpoint, by about
`2e-19`. -/
theorem tlog_drop :
    oetf_filmlight_tlog realLibm 0.075 < oetf_filmlight_tlog realLibm 0.0749999999999999999 := by
  unfold oetf_filmlight_tlog
  rw [if_neg (by norm_num), if_pos (by norm_num)]
  simp only [_expf, realLibm]
  have hq : ((0.075 - 0.5520126568606655) / 0.09232902596577353 : ℝ)
      = -((0.5520126568606655 - 0.075) / 0.09232902596577353) := by norm_num
  rw [hq, Real.exp_neg]
  have hps : (1 : ℝ) / (0.0057048244042473785
        + (0.0749999999999999999 - 0.075) / 16.184376489665897)
      < Real.exp 5.166443075414817101 := by
    have h := Real.sum_le_exp_of_nonneg (x := 5.166443075414817101) (by norm_num) 35
    refine lt_of_lt_of_le ?_ h
    simp only [Finset.sum_range_succ, Finset.sum_range_zero, Nat.factorial]
    norm_num
  have hmono : Real.exp 5.166443075414817101
      ≤ Real.exp ((0.5520126568606655 - 0.075) / 0.09232902596577353) :=
    Real.exp_le_exp.mpr (by norm_num)
  have hK : (0 : ℝ) < 0.0057048244042473785
        + (0.0749999999999999999 - 0.075) / 16.184376489665897 := by norm_num
  have h1 : (Real.exp ((0.5520126568606655 - 0.075) / 0.09232902596577353))⁻¹
      < 0.0057048244042473785 + (0.0749999999999999999 - 0.075) / 16.184376489665897 := by
    rw [inv_lt_comm₀ (Real.exp_pos _) hK, inv_eq_one_div]
    exact lt_of_lt_of_le hps hmono
  linarith

/-! ### The joins of the decode curves from above -/

theorem log_ten_upper : Real.log 10 ≤ 2.30292 := by
  have e : Real.log 10 = 3 * Real.log 2 - Real.log (1 - 1 / 5) := by
    have h1 : (10 : ℝ) = 2 ^ 3 / (1 - 1 / 5) := by norm_num
    rw [h1, Real.log_div (by norm_num) (by norm_num), Real.log_pow]
    norm_num
  have h := Real.abs_log_sub_add_sum_range_le (x := 1 / 5) (by norm_num [abs_lt]) 4
  rw [abs_le] at h
  have h2 := h.1
  simp only [Finset.sum_range_succ, Finset.sum_range_zero] at h2
  have h3 : |(1 / 5 : ℝ)| = 1 / 5 := abs_of_nonneg (by norm_num)
  rw [h3] at h2
  have hl2 := Real.log_two_lt_d9
  rw [e]
  norm_num at h2
  linarith

/-- An upper bound on a power of ten from an upper bound on an exponential. -/
theorem ten_rpow_le (e u V : ℝ) (m : ℕ) (hu : (e + m) * 2.30292 ≤ u)
    (hem : 0 ≤ e + m) (hV : Real.exp u ≤ V * 10 ^ m) : (10 : ℝ) ^ e ≤ V := by
  have h10 : (0 : ℝ) < 10 := by norm_num
  have h1 : (e + m) * Real.log 10 ≤ u :=
    le_trans (mul_le_mul_of_nonneg_left log_ten_upper hem) hu
  have h2 : (10 : ℝ) ^ (e + m) ≤ Real.exp u := by
    rw [Real.rpow_def_of_pos h10, mul_comm]
    exact Real.exp_le_exp.mpr h1
  have h3 : (10 : ℝ) ^ (e + (m : ℝ)) = (10 : ℝ) ^ e * 10 ^ m := by
    rw [Real.rpow_add h10, Real.rpow_natCast]
  rw [h3] at h2
  have hp : (0 : ℝ) < 10 ^ m := by positivity
  exact le_of_mul_le_mul_right (le_trans h2 hV) hp

theorem davinci_join_close :
    _exp2f realLibm (0.02740668 / 0.07329248 - 7) - 0.0075
      ≤ (0.02740668 : ℝ) / 10.44426855 + 1e-4 := by
  have hl2 : 0 < Real.log 2 := Real.log_pos (by norm_num)
  have hq := log2_ge_of_exp_le (0.00262409 + 0.0075) (0.02740668 / 0.07329248)
    0.259192526 (by norm_num) (by norm_num) (by norm_num) exp_le_upper_gap
  rw [le_div_iff₀ hl2] at hq
  have h1 : Real.exp ((0.02740668 / 0.07329248 - 7) * Real.log 2)
      ≤ 0.00262409 + 0.0075 := by
    rw [← Real.le_log_iff_exp_le (by norm_num)]
    exact hq
  simp only [_exp2f, realLibm]
  refine le_trans (sub_le_sub_right h1 _) ?_
  norm_num

theorem tlog_join_close :
    (-1e-4 : ℝ) ≤ _expf realLibm ((0.075 - 0.5520126568606655) / 0.09232902596577353)
      - 0.0057048244042473785 := by
  simp only [_expf, realLibm]
  have hq : ((0.075 - 0.5520126568606655) / 0.09232902596577353 : ℝ)
      = -((0.5520126568606655 - 0.075) / 0.09232902596577353) := by norm_num
  rw [hq, Real.exp_neg]
  have h1 : Real.exp ((0.5520126568606655 - 0.075) / 0.09232902596577353)
      ≤ Real.exp ((5 : ℕ) * 1 + 0.1665) := Real.exp_le_exp.mpr (by norm_num)
  have h2 : Real.exp ((5 : ℕ) * 1 + 0.1665) ≤ 2.7182818286 ^ 5 * 1.1812 := by
    rw [Real.exp_add, Real.exp_nat_mul]
    have ha : Real.exp 1 ^ 5 ≤ 2.7182818286 ^ 5 :=
      pow_le_pow_left₀ (Real.exp_pos 1).le (le_of_lt Real.exp_one_lt_d9) 5
    have hb : Real.exp 0.1665 ≤ 1.1812 :=
      le_trans (exp_taylor6 _ (by norm_num) (by norm_num)) (by norm_num)
    exact mul_le_mul ha hb (Real.exp_pos _).le (by positivity)
  have h3 : Real.exp ((0.5520126568606655 - 0.075) / 0.09232902596577353) ≤ 178 :=
    le_trans h1 (le_trans h2 (by norm_num))
  have h4 : (178 : ℝ)⁻¹
      ≤ (Real.exp ((0.5520126568606655 - 0.075) / 0.09232902596577353))⁻¹ :=
    inv_anti₀ (Real.exp_pos _) h3
  have h5 : (0.0056 : ℝ) ≤ (178 : ℝ)⁻¹ := by norm_num
  linarith

theorem acescct_join_close :
    (0.00772 : ℝ) ≤ _exp2f realLibm (0.155251141552511 * 17.52 - 9.72)
      ∧ _exp2f realLibm (0.155251141552511 * 17.52 - 9.72) ≤ 1 / 128 := by
  simp only [_exp2f, realLibm]
  constructor
  · have hV : (0.00772 : ℝ) * 2 ^ 8 ≤ Real.exp 0.69 := by
      have h := Real.sum_le_exp_of_nonneg (x := 0.69) (by norm_num) 6
      refine le_trans ?_ h
      simp only [Finset.sum_range_succ, Finset.sum_range_zero, Nat.factorial]
      norm_num
    exact two_exp_ge (0.155251141552511 * 17.52 - 9.72) 0.69 0.00772 8 (by norm_num)
      (by norm_num) hV
  · have hl2 : 0 < Real.log 2 := Real.log_pos (by norm_num)
    have h1 : (0.155251141552511 * 17.52 - 9.72 : ℝ) * Real.log 2
        ≤ -((7 : ℕ) * Real.log 2) := by
      have : (0.155251141552511 * 17.52 - 9.72 : ℝ) ≤ -7 := by norm_num
      push_cast
      nlinarith
    refine le_trans (Real.exp_le_exp.mpr h1) ?_
    rw [Real.exp_neg, Real.exp_nat_mul, Real.exp_log (by norm_num)]
    norm_num

theorem logc3_join_close :
    (_exp10f realLibm ((5.367655 * 0.010591 + 0.092809 - 0.385537) / 0.247190) - 0.052272)
        / 5.555556
      ≤ ((5.367655 * 0.010591 + 0.092809 : ℝ) - 0.092809) / 5.367655 + 1e-4 := by
  have hV : Real.exp 0.1054 ≤ (0.1116 : ℝ) * 10 ^ 1 :=
    le_trans (exp_taylor6 _ (by norm_num) (by norm_num)) (by norm_num)
  have := ten_rpow_le ((5.367655 * 0.010591 + 0.092809 - 0.385537) / 0.247190) 0.1054
    0.1116 1 (by norm_num) (by norm_num) hV
  simp only [_exp10f, realLibm]
  have e : ((5.367655 * 0.010591 + 0.092809 : ℝ) - 0.092809) / 5.367655 = 0.010591 := by
    norm_num
  rw [e, div_le_iff₀ (by norm_num)]
  norm_num
  linarith

theorem vlog_join_close :
    _exp10f realLibm ((0.181 - 0.598206) / 0.241514) - 0.00873
      ≤ ((0.181 : ℝ) - 0.125) / 5.6 + 1e-4 := by
  have hV : Real.exp 0.6277 ≤ (0.0188 : ℝ) * 10 ^ 2 :=
    le_trans (exp_taylor6 _ (by norm_num) (by norm_num)) (by norm_num)
  have := ten_rpow_le ((0.181 - 0.598206) / 0.241514) 0.6277 0.0188 2 (by norm_num)
    (by norm_num) hV
  simp only [_exp10f, realLibm]
  have e : ((0.181 : ℝ) - 0.125) / 5.6 = 0.01 := by norm_num
  rw [e]
  norm_num
  linarith

theorem slog3_join_close :
    _exp10f realLibm (((171.2102946929 / 1023) * 1023 - 420) / 261.5) * (0.18 + 0.01) - 0.01
      ≤ ((171.2102946929 / 1023 : ℝ) * 1023 - 95) * 0.01125 / (171.2102946929 - 95)
        + 1e-4 := by
  have hV : Real.exp 0.112 ≤ (0.112 : ℝ) * 10 ^ 1 :=
    le_trans (exp_taylor6 _ (by norm_num) (by norm_num)) (by norm_num)
  have := ten_rpow_le (((171.2102946929 / 1023) * 1023 - 420) / 261.5) 0.112 0.112 1
    (by norm_num) (by norm_num) hV
  simp only [_exp10f, realLibm]
  have e : ((171.2102946929 / 1023 : ℝ) * 1023 - 95) * 0.01125 / (171.2102946929 - 95)
      = 0.01125 := by norm_num
  rw [e]
  norm_num
  linarith

theorem flog2_join_close :
    _exp10f realLibm ((0.100686685370811 - 0.384316) / 0.245281) / 5.555556
        - 0.064829 / 5.555556
      ≤ ((0.100686685370811 : ℝ) - 0.092864) / 8.799461 + 1e-4 := by
  have hh : Real.exp 0.9715 ≤ 2.6436 :=
    le_trans (exp_taylor6 _ (by norm_num) (by norm_num)) (by norm_num)
  have hV : Real.exp (0.9715 + 0.9715) ≤ (0.07 : ℝ) * 10 ^ 2 := by
    rw [Real.exp_add]
    have := mul_le_mul hh hh (Real.exp_pos _).le (by norm_num)
    refine le_trans this (by norm_num)
  have := ten_rpow_le ((0.100686685370811 - 0.384316) / 0.245281) (0.9715 + 0.9715) 0.07 2
    (by norm_num) (by norm_num) hV
  simp only [_exp10f, realLibm]
  rw [sub_le_iff_le_add, div_le_iff₀ (by norm_num)]
  refine le_trans this ?_
  norm_num

/-! ### Monotonicity across the breakpoint, up to the join -/

/-- Each constant of `oetf_filmlight_tlog_binary32` is within half a unit in the last place of
the decimal literal of the source, so it is the binary32 number nearest to it. -/
theorem tlog_binary32_literals :
    |(10066330 / 2 ^ 27 : ℚ) - 0.075| ≤ 1 / 2 ^ 28
      ∧ |(8485274 / 2 ^ 19 : ℚ) - 16.184376489665897| ≤ 1 / 2 ^ 20
      ∧ |(9261236 / 2 ^ 24 : ℚ) - 0.5520126568606655| ≤ 1 / 2 ^ 25
      ∧ |(12392192 / 2 ^ 27 : ℚ) - 0.09232902596577353| ≤ 1 / 2 ^ 28
      ∧ |(12251017 / 2 ^ 31 : ℚ) - 0.0057048244042473785| ≤ 1 / 2 ^ 32 := by
  refine ⟨?_, ?_, ?_, ?_, ?_⟩ <;> rw [abs_le] <;> constructor <;> norm_num

section ClaimsSampler

variable {F : Type} [LinearOrderedField F] [FloorRing F]

/-- Claim C1. With the Negative, Separation and Print stages all disabled, the pixel loop
computes `dwg_di_to_rec709_24 (input_to_dwg_intermediate rgb_in inGamut inOetf)` as `out_rgb`
and writes its three channels to `dstPix[0..2]`, for every gamut and transfer index, every
LUT choice and every blend factor. -/
theorem stage_disable_is_noop (L : Libm F) (E : EmbeddedLUTs F) (P : FilmPipelineProcessor F)
    (nComp : Int) (srcPix dstPix : Nat → F)
    (hn : P.negEnable = false) (hs : P.sepEnable = false) (hp : P.printEnable = false) :
    (pixel_locals L E P nComp srcPix).out_rgb
        = dwg_di_to_rec709_24 L
            (input_to_dwg_intermediate L ⟨srcPix 0, srcPix 1, srcPix 2⟩ P.inGamut P.inOetf)
      ∧ process_pixel L E P nComp srcPix dstPix 0
        = (dwg_di_to_rec709_24 L
            (input_to_dwg_intermediate L ⟨srcPix 0, srcPix 1, srcPix 2⟩ P.inGamut P.inOetf)).x
      ∧ process_pixel L E P nComp srcPix dstPix 1
        = (dwg_di_to_rec709_24 L
            (input_to_dwg_intermediate L ⟨srcPix 0, srcPix 1, srcPix 2⟩ P.inGamut P.inOetf)).y
      ∧ process_pixel L E P nComp srcPix dstPix 2
        = (dwg_di_to_rec709_24 L
            (input_to_dwg_intermediate L ⟨srcPix 0, srcPix 1, srcPix 2⟩ P.inGamut P.inOetf)).z := by
  have h : (pixel_locals L E P nComp srcPix).out_rgb
        = dwg_di_to_rec709_24 L
            (input_to_dwg_intermediate L ⟨srcPix 0, srcPix 1, srcPix 2⟩ P.inGamut P.inOetf) := by
    simp [pixel_locals, hn, hs, hp]
  refine ⟨h, ?_, ?_, ?_⟩ <;> simp [process_pixel, pixel_write, h]

/-- Claim C3. With `ix iy iz` the cell indices, `dx dy dz` the fractional offsets and
`c000 .. c111` the eight clamped corner fetches of `lut_sample_tetra lut inp`, the result is
given by six formulas, one for each order of the offsets; in each the three edge vectors are
weighted by the offsets in decreasing order; and exactly one of the six conditions holds. -/
theorem tetra_six_orderings (lut : Lut3D F) (inp : float3 F) (ix iy iz : Int) (dx dy dz : F)
    (c000 c100 c010 c001 c110 c101 c011 c111 : float3 F)
    (hix : ix = cell_index lut inp.x) (hiy : iy = cell_index lut inp.y)
    (hiz : iz = cell_index lut inp.z)
    (hdx : dx = frac_offset lut inp.x) (hdy : dy = frac_offset lut inp.y)
    (hdz : dz = frac_offset lut inp.z)
    (h000 : c000 = lut_fetch lut ix iy iz) (h100 : c100 = lut_fetch lut (ix + 1) iy iz)
    (h010 : c010 = lut_fetch lut ix (iy + 1) iz) (h001 : c001 = lut_fetch lut ix iy (iz + 1))
    (h110 : c110 = lut_fetch lut (ix + 1) (iy + 1) iz)
    (h101 : c101 = lut_fetch lut (ix + 1) iy (iz + 1))
    (h011 : c011 = lut_fetch lut ix (iy + 1) (iz + 1))
    (h111 : c111 = lut_fetch lut (ix + 1) (iy + 1) (iz + 1)) :
    (dx ≥ dy ∧ dy ≥ dz →
        lut_sample_tetra lut inp
          = c000 + (c100 - c000) * dx + (c110 - c100) * dy + (c111 - c110) * dz
        ∧ dx ≥ dy ∧ dy ≥ dz)
    ∧ (dx ≥ dz ∧ dz > dy →
        lut_sample_tetra lut inp
          = c000 + (c100 - c000) * dx + (c101 - c100) * dz + (c111 - c101) * dy
        ∧ dx ≥ dz ∧ dz ≥ dy)
    ∧ (dz > dx ∧ dx ≥ dy →
        lut_sample_tetra lut inp
          = c000 + (c001 - c000) * dz + (c101 - c001) * dx + (c111 - c101) * dy
        ∧ dz ≥ dx ∧ dx ≥ dy)
    ∧ (dy > dx ∧ dx ≥ dz →
        lut_sample_tetra lut inp
          = c000 + (c010 - c000) * dy + (c110 - c010) * dx + (c111 - c110) * dz
        ∧ dy ≥ dx ∧ dx ≥ dz)
    ∧ (dy ≥ dz ∧ dz > dx →
        lut_sample_tetra lut inp
          = c000 + (c010 - c000) * dy + (c011 - c010) * dz + (c111 - c011) * dx
        ∧ dy ≥ dz ∧ dz ≥ dx)
    ∧ (dz > dy ∧ dy > dx →
        lut_sample_tetra lut inp
          = c000 + (c001 - c000) * dz + (c011 - c001) * dy + (c111 - c011) * dx
        ∧ dz ≥ dy ∧ dy ≥ dx)
    ∧ (if dx ≥ dy ∧ dy ≥ dz then 1 else 0) + (if dx ≥ dz ∧ dz > dy then 1 else 0)
        + (if dz > dx ∧ dx ≥ dy then 1 else 0) + (if dy > dx ∧ dx ≥ dz then 1 else 0)
        + (if dy ≥ dz ∧ dz > dx then 1 else 0) + (if dz > dy ∧ dy > dx then 1 else 0)
        = (1 : Nat) := by
  have hs : lut_sample_tetra lut inp
      = tetra_interp c000 c100 c010 c001 c110 c101 c011 c111 dx dy dz := by
    rw [lut_sample_tetra_eq, h000, h100, h010, h001, h110, h101, h011, h111, hix, hiy, hiz,
      hdx, hdy, hdz]
  rw [hs]
  clear hs hix hiy hiz hdx hdy hdz h000 h100 h010 h001 h110 h101 h011 h111
  refine ⟨?_, ?_, ?_, ?_, ?_, ?_, ?_⟩
  · rintro ⟨h1, h2⟩
    exact ⟨by simp only [tetra_interp, if_pos h1, if_pos h2], h1, h2⟩
  · rintro ⟨h1, h2⟩
    have h3 : dx ≥ dy := le_trans (le_of_lt h2) h1
    exact ⟨by simp only [tetra_interp, if_pos h3, if_neg (not_le.mpr h2), if_pos h1], h1,
      le_of_lt h2⟩
  · rintro ⟨h1, h2⟩
    have h3 : ¬ dy ≥ dz := not_le.mpr (lt_of_le_of_lt h2 h1)
    exact ⟨by simp only [tetra_interp, if_pos h2, if_neg h3, if_neg (not_le.mpr h1)],
      le_of_lt h1, h2⟩
  · rintro ⟨h1, h2⟩
    exact ⟨by simp only [tetra_interp, if_neg (not_le.mpr h1), if_pos h2], le_of_lt h1, h2⟩
  · rintro ⟨h1, h2⟩
    have h3 : ¬ dx ≥ dy := not_le.mpr (lt_of_lt_of_le h2 h1)
    exact ⟨by simp only [tetra_interp, if_neg h3, if_neg (not_le.mpr h2), if_pos h1], h1,
      le_of_lt h2⟩
  · rintro ⟨h1, h2⟩
    have h3 : ¬ dx ≥ dz := not_le.mpr (lt_trans h2 h1)
    exact ⟨by simp only [tetra_interp, if_neg (not_le.mpr h2), if_neg h3,
      if_neg (not_le.mpr h1)], le_of_lt h1, le_of_lt h2⟩
  · rcases le_or_lt dy dx with h1 | h1 <;> rcases le_or_lt dz dy with h2 | h2 <;>
      rcases le_or_lt dz dx with h3 | h3 <;>
      simp [h1, h2, h3, not_le.mpr, not_lt.mpr, le_of_lt] <;>
      (exfalso; linarith)

/-- Claim C5. Sampling at any input, inside or outside the unit cube, equals sampling at the
input clamped to the unit cube; in particular sampling at `(-0.5, 1.5, 0.5)` equals sampling
at `(0, 1, 0.5)`. -/
theorem lut_sample_clamps_input (lut : Lut3D F) (inp : float3 F) :
    lut_sample_tetra lut inp = lut_sample_tetra lut (clamp3 inp 0 1)
      ∧ lut_sample_tetra lut ⟨-0.5, 1.5, 0.5⟩ = lut_sample_tetra lut ⟨0, 1, 0.5⟩ := by
  have h : ∀ v : float3 F, lut_sample_tetra lut v = lut_sample_tetra lut (clamp3 v 0 1) := by
    intro v
    unfold lut_sample_tetra
    rw [clamp3_idem]
  refine ⟨h inp, ?_⟩
  rw [h ⟨-0.5, 1.5, 0.5⟩, h ⟨0, 1, 0.5⟩]
  congr 1
  simp only [clamp3, clampf]
  norm_num

/-- Claim C10. An enabled stage whose blend factor is at most `0` returns its pre-stage
value: `dwg_di` for Negative, `after_neg` for Separation, `baseline` for Print. -/
theorem blend_nonpos_is_prestage (L : Libm F) (E : EmbeddedLUTs F)
    (P : FilmPipelineProcessor F) (nComp : Int) (srcPix : Nat → F) :
    (P.negEnable = true → P.negBlend ≤ 0 →
        (pixel_locals L E P nComp srcPix).after_neg = (pixel_locals L E P nComp srcPix).dwg_di)
    ∧ (P.sepEnable = true → P.sepBlend ≤ 0 →
        (pixel_locals L E P nComp srcPix).after_sep
          = (pixel_locals L E P nComp srcPix).after_neg)
    ∧ (P.printEnable = true → P.printBlend ≤ 0 →
        (pixel_locals L E P nComp srcPix).out_rgb
          = (pixel_locals L E P nComp srcPix).baseline) := by
  refine ⟨?_, ?_, ?_⟩ <;> intro he hb <;>
    simp only [pixel_locals, he, if_true, clampf_of_nonpos _ hb, lerp3_zero]

/-- Claim C11. An enabled stage whose blend factor is at least `1` returns the fully
transformed value: `dwg_di * scale` for Negative, the separation table sampled at `after_neg`
for Separation, the print table sampled at `after_sep` for Print. -/
theorem blend_ge_one_is_transformed (L : Libm F) (E : EmbeddedLUTs F)
    (P : FilmPipelineProcessor F) (nComp : Int) (srcPix : Nat → F) :
    (P.negEnable = true → 1 ≤ P.negBlend →
        (pixel_locals L E P nComp srcPix).after_neg
          = (pixel_locals L E P nComp srcPix).dwg_di
            * neg_scale (get_neg_lut E P.negChoice) (pixel_locals L E P nComp srcPix).dwg_di)
    ∧ (P.sepEnable = true → 1 ≤ P.sepBlend →
        (pixel_locals L E P nComp srcPix).after_sep
          = lut_sample_tetra (get_sep_lut E P.sepChoice)
              (pixel_locals L E P nComp srcPix).after_neg)
    ∧ (P.printEnable = true → 1 ≤ P.printBlend →
        (pixel_locals L E P nComp srcPix).out_rgb
          = lut_sample_tetra (get_print_lut E P.printChoice)
              (pixel_locals L E P nComp srcPix).after_sep) := by
  refine ⟨?_, ?_, ?_⟩
  · intro he hb
    rw [after_neg_enabled L E P nComp srcPix he, clampf_of_one_le _ hb, lerp3_one]
  · intro he hb
    simp only [pixel_locals, he, if_true, clampf_of_one_le _ hb, lerp3_one]
  · intro he hb
    simp only [pixel_locals, he, if_true, clampf_of_one_le _ hb, lerp3_one]

/-- Claim C12. The enabled Negative stage multiplies the three channels of `dwg_di` by the
single scalar `k = 1 + t * (scale - 1)`, with `t` the blend clamped to `[0, 1]` and `scale`
the gain derived from the table. -/
theorem negative_stage_rescales (L : Libm F) (E : EmbeddedLUTs F)
    (P : FilmPipelineProcessor F) (nComp : Int) (srcPix : Nat → F) (he : P.negEnable = true) :
    (pixel_locals L E P nComp srcPix).after_neg
      = (pixel_locals L E P nComp srcPix).dwg_di
        * (1 + clampf P.negBlend 0 1
            * (neg_scale (get_neg_lut E P.negChoice) (pixel_locals L E P nComp srcPix).dwg_di
              - 1)) := by
  rw [after_neg_enabled L E P nComp srcPix he, lerp3_self_smul]

/-- Claim C13. When the Rec.709-weighted luma of `dwg_di` is at most `1e-6`, the gain is `1`
(the quotient by the luma is not taken) and `after_neg` equals `dwg_di`, for every table
choice and blend factor, the stage being enabled or not. -/
theorem negative_stage_low_luma (L : Libm F) (E : EmbeddedLUTs F)
    (P : FilmPipelineProcessor F) (nComp : Int) (srcPix : Nat → F)
    (hY : luma_rec709 (pixel_locals L E P nComp srcPix).dwg_di ≤ 1e-6) :
    neg_scale (get_neg_lut E P.negChoice) (pixel_locals L E P nComp srcPix).dwg_di = 1
      ∧ (pixel_locals L E P nComp srcPix).after_neg
        = (pixel_locals L E P nComp srcPix).dwg_di := by
  have hs : neg_scale (get_neg_lut E P.negChoice) (pixel_locals L E P nComp srcPix).dwg_di
      = 1 := by
    simp only [neg_scale, gt_iff_lt, if_neg (not_lt.mpr hY)]
  refine ⟨hs, ?_⟩
  cases he : P.negEnable
  · simp only [pixel_locals, he]
    simp
  · rw [after_neg_enabled L E P nComp srcPix he, hs, lerp3_self_smul]
    apply float3.ext3 <;> simp

/-- Claim C14. For a four-component pixel the alpha read from the source is `srcPix[3]` and
the fourth destination component receives it unchanged, for every configuration. -/
theorem alpha_passthrough (L : Libm F) (E : EmbeddedLUTs F)
    (P : FilmPipelineProcessor F) (srcPix dstPix : Nat → F) :
    (pixel_locals L E P 4 srcPix).a_in = srcPix 3
      ∧ process_pixel L E P 4 srcPix dstPix 3 = srcPix 3 := by
  constructor <;> simp [process_pixel, pixel_write, pixel_locals]

/-- Claim C15, as amended. For a three-component pixel the local `a_in` is `1` for every
configuration, and the write-back stores the three colour components only: every destination
cell from index `3` on keeps its content. -/
theorem three_component_alpha (L : Libm F) (E : EmbeddedLUTs F)
    (P : FilmPipelineProcessor F) (srcPix dstPix : Nat → F) :
    (pixel_locals L E P 3 srcPix).a_in = 1
      ∧ ∀ i, 3 ≤ i → process_pixel L E P 3 srcPix dstPix i = dstPix i := by
  constructor
  · simp [pixel_locals]
  · intro i hi
    have h0 : i ≠ 0 := by omega
    have h1 : i ≠ 1 := by omega
    have h2 : i ≠ 2 := by omega
    simp [process_pixel, pixel_write, h0, h1, h2]

/-- Claim C23. With the Negative stage enabled, blend at least `1` and working-space luma `Y`
above `1e-6`, the luma of `after_neg` is the luma of the negative table sampled at the
neutral triple `(Y, Y, Y)`. -/
theorem negative_stage_transfers_luma (L : Libm F) (E : EmbeddedLUTs F)
    (P : FilmPipelineProcessor F) (nComp : Int) (srcPix : Nat → F) (he : P.negEnable = true) (hb : 1 ≤ P.negBlend)
    (hY : luma_rec709 (pixel_locals L E P nComp srcPix).dwg_di > 1e-6) :
    luma_rec709 (pixel_locals L E P nComp srcPix).after_neg
      = luma_rec709 (lut_sample_tetra (get_neg_lut E P.negChoice)
          ⟨luma_rec709 (pixel_locals L E P nComp srcPix).dwg_di,
           luma_rec709 (pixel_locals L E P nComp srcPix).dwg_di,
           luma_rec709 (pixel_locals L E P nComp srcPix).dwg_di⟩) := by
  rw [after_neg_enabled L E P nComp srcPix he, clampf_of_one_le _ hb, lerp3_one, luma_smul]
  have hpos : (0 : F) < luma_rec709 (pixel_locals L E P nComp srcPix).dwg_di :=
    lt_trans (by norm_num) hY
  simp only [neg_scale, if_pos hY]
  field_simp

/-- Claim C25. The sampled function has no jump where the cell index changes: at an input
whose position along one axis is the integer `i + 1` (cell index `i + 1`, offset `0`),
`lut_sample_tetra` returns what the interpolation step of cell `i` gives with that offset
equal to `1` and the same offsets on the other two axes; this for each of the three axes. -/
theorem lut_sample_face_continuity (lut : Lut3D F) (inp : float3 F) (i : Int) :
    (cell_index lut inp.x = i + 1 → frac_offset lut inp.x = 0 →
      lut_sample_tetra lut inp
        = tetra_interp
            (lut_fetch lut i (cell_index lut inp.y) (cell_index lut inp.z))
            (lut_fetch lut (i + 1) (cell_index lut inp.y) (cell_index lut inp.z))
            (lut_fetch lut i (cell_index lut inp.y + 1) (cell_index lut inp.z))
            (lut_fetch lut i (cell_index lut inp.y) (cell_index lut inp.z + 1))
            (lut_fetch lut (i + 1) (cell_index lut inp.y + 1) (cell_index lut inp.z))
            (lut_fetch lut (i + 1) (cell_index lut inp.y) (cell_index lut inp.z + 1))
            (lut_fetch lut i (cell_index lut inp.y + 1) (cell_index lut inp.z + 1))
            (lut_fetch lut (i + 1) (cell_index lut inp.y + 1) (cell_index lut inp.z + 1))
            1 (frac_offset lut inp.y) (frac_offset lut inp.z))
    ∧ (cell_index lut inp.y = i + 1 → frac_offset lut inp.y = 0 →
      lut_sample_tetra lut inp
        = tetra_interp
            (lut_fetch lut (cell_index lut inp.x) i (cell_index lut inp.z))
            (lut_fetch lut (cell_index lut inp.x + 1) i (cell_index lut inp.z))
            (lut_fetch lut (cell_index lut inp.x) (i + 1) (cell_index lut inp.z))
            (lut_fetch lut (cell_index lut inp.x) i (cell_index lut inp.z + 1))
            (lut_fetch lut (cell_index lut inp.x + 1) (i + 1) (cell_index lut inp.z))
            (lut_fetch lut (cell_index lut inp.x + 1) i (cell_index lut inp.z + 1))
            (lut_fetch lut (cell_index lut inp.x) (i + 1) (cell_index lut inp.z + 1))
            (lut_fetch lut (cell_index lut inp.x + 1) (i + 1) (cell_index lut inp.z + 1))
            (frac_offset lut inp.x) 1 (frac_offset lut inp.z))
    ∧ (cell_index lut inp.z = i + 1 → frac_offset lut inp.z = 0 →
      lut_sample_tetra lut inp
        = tetra_interp
            (lut_fetch lut (cell_index lut inp.x) (cell_index lut inp.y) i)
            (lut_fetch lut (cell_index lut inp.x + 1) (cell_index lut inp.y) i)
            (lut_fetch lut (cell_index lut inp.x) (cell_index lut inp.y + 1) i)
            (lut_fetch lut (cell_index lut inp.x) (cell_index lut inp.y) (i + 1))
            (lut_fetch lut (cell_index lut inp.x + 1) (cell_index lut inp.y + 1) i)
            (lut_fetch lut (cell_index lut inp.x + 1) (cell_index lut inp.y) (i + 1))
            (lut_fetch lut (cell_index lut inp.x) (cell_index lut inp.y + 1) (i + 1))
            (lut_fetch lut (cell_index lut inp.x + 1) (cell_index lut inp.y + 1) (i + 1))
            (frac_offset lut inp.x) (frac_offset lut inp.y) 1) := by
  obtain ⟨hx0, hx1⟩ := frac_offset_mem lut inp.x
  obtain ⟨hy0, hy1⟩ := frac_offset_mem lut inp.y
  obtain ⟨hz0, hz1⟩ := frac_offset_mem lut inp.z
  refine ⟨?_, ?_, ?_⟩
  · intro hc h0
    rw [lut_sample_tetra_eq, hc, h0]
    exact (tetra_face_x _ _ _ _ _ _ _ _ _ _ _ _ _ _ ⟨hy0, hy1.le⟩ ⟨hz0, hz1.le⟩).symm
  · intro hc h0
    rw [lut_sample_tetra_eq, hc, h0]
    exact (tetra_face_y _ _ _ _ _ _ _ _ _ _ _ _ _ _ ⟨hx0, hx1.le⟩ ⟨hz0, hz1.le⟩).symm
  · intro hc h0
    rw [lut_sample_tetra_eq, hc, h0]
    exact (tetra_face_z _ _ _ _ _ _ _ _ _ _ _ _ _ _ ⟨hx0, hx1.le⟩ ⟨hy0, hy1.le⟩).symm

end ClaimsSampler

section ClaimsField

variable {F : Type} [LinearOrderedField F]

/-- Claim C4. The interpolation step has no jump at ties: on each closed tetrahedron (the
order of the offsets read with `≥` throughout) its value is the formula of that tetrahedron,
so at a tie the value is the one both neighbouring formulas give; and whenever two offsets are
equal, the formulas of the two tetrahedra sharing that face agree. -/
theorem tetra_tie_consistency (c000 c100 c010 c001 c110 c101 c011 c111 : float3 F)
    (dx dy dz : F) :
    (dx ≥ dy ∧ dy ≥ dz → tetra_interp c000 c100 c010 c001 c110 c101 c011 c111 dx dy dz
        = c000 + (c100 - c000) * dx + (c110 - c100) * dy + (c111 - c110) * dz)
    ∧ (dx ≥ dz ∧ dz ≥ dy → tetra_interp c000 c100 c010 c001 c110 c101 c011 c111 dx dy dz
        = c000 + (c100 - c000) * dx + (c101 - c100) * dz + (c111 - c101) * dy)
    ∧ (dz ≥ dx ∧ dx ≥ dy → tetra_interp c000 c100 c010 c001 c110 c101 c011 c111 dx dy dz
        = c000 + (c001 - c000) * dz + (c101 - c001) * dx + (c111 - c101) * dy)
    ∧ (dy ≥ dx ∧ dx ≥ dz → tetra_interp c000 c100 c010 c001 c110 c101 c011 c111 dx dy dz
        = c000 + (c010 - c000) * dy + (c110 - c010) * dx + (c111 - c110) * dz)
    ∧ (dy ≥ dz ∧ dz ≥ dx → tetra_interp c000 c100 c010 c001 c110 c101 c011 c111 dx dy dz
        = c000 + (c010 - c000) * dy + (c011 - c010) * dz + (c111 - c011) * dx)
    ∧ (dz ≥ dy ∧ dy ≥ dx → tetra_interp c000 c100 c010 c001 c110 c101 c011 c111 dx dy dz
        = c000 + (c001 - c000) * dz + (c011 - c001) * dy + (c111 - c011) * dx)
    ∧ (dx = dy →
        c000 + (c100 - c000) * dx + (c110 - c100) * dy + (c111 - c110) * dz
          = c000 + (c010 - c000) * dy + (c110 - c010) * dx + (c111 - c110) * dz
        ∧ c000 + (c001 - c000) * dz + (c101 - c001) * dx + (c111 - c101) * dy
          = c000 + (c001 - c000) * dz + (c011 - c001) * dy + (c111 - c011) * dx)
    ∧ (dy = dz →
        c000 + (c100 - c000) * dx + (c110 - c100) * dy + (c111 - c110) * dz
          = c000 + (c100 - c000) * dx + (c101 - c100) * dz + (c111 - c101) * dy
        ∧ c000 + (c010 - c000) * dy + (c011 - c010) * dz + (c111 - c011) * dx
          = c000 + (c001 - c000) * dz + (c011 - c001) * dy + (c111 - c011) * dx)
    ∧ (dx = dz →
        c000 + (c100 - c000) * dx + (c101 - c100) * dz + (c111 - c101) * dy
          = c000 + (c001 - c000) * dz + (c101 - c001) * dx + (c111 - c101) * dy
        ∧ c000 + (c010 - c000) * dy + (c110 - c010) * dx + (c111 - c110) * dz
          = c000 + (c010 - c000) * dy + (c011 - c010) * dz + (c111 - c011) * dx) := by
  refine ⟨?_, ?_, ?_, ?_, ?_, ?_, ?_, ?_, ?_⟩
  iterate 6
    rintro ⟨h1, h2⟩
    unfold tetra_interp
    split_ifs <;>
    first
      | rfl
      | (apply float3.ext3 <;> simp only [float3.add_x, float3.add_y, float3.add_z,
          float3.sub_x, float3.sub_y, float3.sub_z, float3.smul_x, float3.smul_y,
          float3.smul_z] <;>
          first
            | (have e1 : dx = dy := by linarith
               have e2 : dy = dz := by linarith
               subst e1; subst e2; ring)
            | (have e1 : dx = dy := by linarith
               subst e1; ring)
            | (have e1 : dy = dz := by linarith
               subst e1; ring)
            | (have e1 : dx = dz := by linarith
               subst e1; ring))
  all_goals
    intro e
    subst e
    constructor <;> apply float3.ext3 <;>
      simp only [float3.add_x, float3.add_y, float3.add_z, float3.sub_x, float3.sub_y,
        float3.sub_z, float3.smul_x, float3.smul_y, float3.smul_z] <;> ring

/-- Claim C6. For every matrix with non-zero determinant, `inv3` is a two-sided inverse
under `mat_vec`. -/
theorem inv3_two_sided (A : Mat3 F) (h : det3 A ≠ 0) (v : F × F × F) :
    mat_vec (inv3 A) (mat_vec A v) = v ∧ mat_vec A (mat_vec (inv3 A) v) = v :=
  ⟨inv3_mul_cancel_left A h v, inv3_mul_cancel_right A h v⟩

/-- Claim C7. The two inverted constants have non-zero determinant, so `inv3` does not take
its identity fallback for them, and `xyzToDaVinciWG` after `inputGamutToXYZ 15`, as well as
`xyzToRec709` after `matrix_rec709_to_xyz`, returns every vector unchanged. -/
theorem gamut_constants_round_trip (v : F × F × F) :
    det3 (matrix_davinciwg_to_xyz : Mat3 F) ≠ 0
      ∧ det3 (matrix_rec709_to_xyz : Mat3 F) ≠ 0
      ∧ mat_vec xyzToDaVinciWG (mat_vec (inputGamutToXYZ 15) v) = v
      ∧ mat_vec xyzToRec709 (mat_vec matrix_rec709_to_xyz v) = v := by
  refine ⟨det3_davinciwg_ne_zero, det3_rec709_ne_zero, ?_, ?_⟩
  · have h15 : (inputGamutToXYZ 15 : Mat3 F) = matrix_davinciwg_to_xyz := by
      simp [inputGamutToXYZ]
    rw [h15]
    exact inv3_mul_cancel_left _ det3_davinciwg_ne_zero v
  · exact inv3_mul_cancel_left _ det3_rec709_ne_zero v

/-- Claim C8. For every matrix with zero determinant, `inv3` returns the identity matrix. -/
theorem inv3_singular_is_identity (A : Mat3 F) (h : det3 A = 0) : inv3 A = mat_identity := by
  simp [inv3, h]

/-- Claim C20. `inputGamutToXYZ` is defined for every index: outside `0 .. 15` it returns the
identity matrix, at `0` the identity, and at each of `1 .. 15` the named constant. -/
theorem inputGamutToXYZ_table (idx : Int) :
    ((idx < 0 ∨ 16 ≤ idx) → (inputGamutToXYZ idx : Mat3 F) = mat_identity)
    ∧ (inputGamutToXYZ 0 : Mat3 F) = mat_identity
    ∧ (inputGamutToXYZ 1 : Mat3 F) = matrix_ap0_to_xyz
    ∧ (inputGamutToXYZ 2 : Mat3 F) = matrix_ap1_to_xyz
    ∧ (inputGamutToXYZ 3 : Mat3 F) = matrix_p3d65_to_xyz
    ∧ (inputGamutToXYZ 4 : Mat3 F) = matrix_rec2020_to_xyz
    ∧ (inputGamutToXYZ 5 : Mat3 F) = matrix_rec709_to_xyz
    ∧ (inputGamutToXYZ 6 : Mat3 F) = matrix_arriwg3_to_xyz
    ∧ (inputGamutToXYZ 7 : Mat3 F) = matrix_arriwg4_to_xyz
    ∧ (inputGamutToXYZ 8 : Mat3 F) = matrix_redwg_to_xyz
    ∧ (inputGamutToXYZ 9 : Mat3 F) = matrix_sonysgamut3_to_xyz
    ∧ (inputGamutToXYZ 10 : Mat3 F) = matrix_sonysgamut3cine_to_xyz
    ∧ (inputGamutToXYZ 11 : Mat3 F) = matrix_vgamut_to_xyz
    ∧ (inputGamutToXYZ 12 : Mat3 F) = matrix_bmdwg_to_xyz
    ∧ (inputGamutToXYZ 13 : Mat3 F) = matrix_egamut_to_xyz
    ∧ (inputGamutToXYZ 14 : Mat3 F) = matrix_egamut2_to_xyz
    ∧ (inputGamutToXYZ 15 : Mat3 F) = matrix_davinciwg_to_xyz :=
  ⟨inputGamutToXYZ_out_of_range idx, rfl, rfl, rfl, rfl, rfl, rfl, rfl, rfl, rfl, rfl, rfl, rfl,
    rfl, rfl, rfl, rfl⟩

/-- Claim C21. `decode_input_oetf` is defined for every index and returns its argument
unchanged at index `0` and at every index outside `0 .. 9`. -/
theorem decode_input_oetf_passthrough (L : Libm F) (idx : Int) (x : F) :
    decode_input_oetf L 0 x = x
      ∧ (idx < 0 ∨ 10 ≤ idx → decode_input_oetf L idx x = x) :=
  ⟨rfl, fun h => decode_input_oetf_default L idx h x⟩

end ClaimsField

/-- Claim C9. For every real `y` with `1e-4 ≤ y ≤ 10`, decoding the DaVinci Intermediate
encoding of `y` gives `y` back within the relative tolerance `1e-5`, also next to the
breakpoint, where the encoder and the decoder may take different branches. -/
theorem davinci_round_trip (y : ℝ) (h1 : 1e-4 ≤ y) (_h2 : y ≤ 10) :
    |decode_davinci_intermediate realLibm (encode_davinci_intermediate realLibm y) - y|
      ≤ 1e-5 * y := by
  have hy : 0 < y := lt_of_lt_of_le (by norm_num) h1
  have hl2 : 0 < Real.log 2 := Real.log_pos (by norm_num)
  unfold decode_davinci_intermediate oetf_davinci_intermediate encode_davinci_intermediate
  simp only [_exp2f, _log2f, realLibm]
  by_cases hb : y ≤ 0.002624088021941948
  · rw [if_pos hb]
    have hc : y * 10.44426855 ≤ 0.02740668 := by
      have : y * 10.44426855 ≤ 0.002624088021941948 * 10.44426855 := by nlinarith
      exact le_trans this (by norm_num)
    rw [if_pos hc]
    have : y * 10.44426855 / 10.44426855 - y = 0 := by field_simp
    rw [this, abs_zero]
    positivity
  · rw [if_neg hb]
    push_neg at hb
    have hmax : max (y + 0.0075) 1e-12 = y + 0.0075 := max_eq_left (by norm_num; linarith)
    rw [hmax]
    have hw : 0 < y + 0.0075 := by linarith
    set t := Real.log (y + 0.0075) / Real.log 2 with ht
    by_cases hc : 0.07329248 * (t + 7) ≤ 0.02740668
    · rw [if_pos hc]
      have hU : y ≤ 0.00262409 := by
        by_contra hU
        push_neg at hU
        have hlog : Real.log (0.00262409 + 0.0075) < Real.log (y + 0.0075) :=
          Real.log_lt_log (by norm_num) (by linarith)
        have hq := log2_ge_of_exp_le (0.00262409 + 0.0075) (0.02740668 / 0.07329248)
          0.259192526 (by norm_num) (by norm_num) (by norm_num) exp_le_upper_gap
        have : Real.log (0.00262409 + 0.0075) / Real.log 2 < t :=
          div_lt_div_of_pos_right hlog hl2
        have h3 : 0.02740668 / 0.07329248 - 7 < t := lt_of_le_of_lt hq this
        have h4 : (0.02740668 : ℝ) = 0.07329248 * (0.02740668 / 0.07329248 - 7 + 7) := by
          norm_num
        nlinarith
      have hV : 0.00262407 * 10.44426855 ≤ 0.07329248 * (t + 7) := by
        have hlog : Real.log (0.002624088021941948 + 0.0075) < Real.log (y + 0.0075) :=
          Real.log_lt_log (by norm_num) (by linarith)
        have hq := log2_ge_of_exp_le (0.002624088021941948 + 0.0075)
          (0.00262407 * 10.44426855 / 0.07329248)
          0.259190746 (by norm_num) (by norm_num) (by norm_num) exp_le_breakpoint
        have : Real.log (0.002624088021941948 + 0.0075) / Real.log 2 < t :=
          div_lt_div_of_pos_right hlog hl2
        have h3 : 0.00262407 * 10.44426855 / 0.07329248 - 7 < t := lt_of_le_of_lt hq this
        have h4 : (0.00262407 * 10.44426855 : ℝ)
            = 0.07329248 * (0.00262407 * 10.44426855 / 0.07329248 - 7 + 7) := by
          norm_num
        nlinarith
      rw [abs_le]
      constructor
      · rw [le_sub_iff_add_le, le_div_iff₀ (by norm_num)]
        nlinarith
      · rw [sub_le_iff_le_add, div_le_iff₀ (by norm_num)]
        nlinarith
    · rw [if_neg hc]
      have h5 : (0.07329248 * (t + 7) / 0.07329248 - 7) * Real.log 2
          = Real.log (y + 0.0075) := by
        rw [ht]
        field_simp
        ring
      rw [h5, Real.exp_log hw]
      have : y + 0.0075 - 0.0075 - y = 0 := by ring
      rw [this, abs_zero]
      positivity

/-- The eight curves other than LogC4 join within `1e-4` at their breakpoint: for each, the
value of the affine branch at the breakpoint and the value of the logarithmic branch there
differ by at most `1e-4`; the branch that `decode_input_oetf` selects at the breakpoint is
written through the function itself. -/
theorem sibling_curves_join :
    |decode_input_oetf realLibm 1 0.02740668
        - (_exp2f realLibm (0.02740668 / 0.07329248 - 7) - 0.0075)| ≤ 1e-4
    ∧ |(0.075 - 0.075) / 16.184376489665897 - decode_input_oetf realLibm 2 0.075| ≤ 1e-4
    ∧ |decode_input_oetf realLibm 3 0.155251141552511
        - _exp2f realLibm (0.155251141552511 * 17.52 - 9.72)| ≤ 1e-4
    ∧ |((5.367655 * 0.010591 + 0.092809) - 0.092809) / 5.367655
        - decode_input_oetf realLibm 4 (5.367655 * 0.010591 + 0.092809)| ≤ 1e-4
    ∧ |(0 / 15.1927 - 0.01) - decode_input_oetf realLibm 6 0| ≤ 1e-4
    ∧ |(0.181 - 0.125) / 5.6 - decode_input_oetf realLibm 7 0.181| ≤ 1e-4
    ∧ |((171.2102946929 / 1023) * 1023 - 95) * 0.01125 / (171.2102946929 - 95)
        - decode_input_oetf realLibm 8 (171.2102946929 / 1023)| ≤ 1e-4
    ∧ |(0.100686685370811 - 0.092864) / 8.799461
        - decode_input_oetf realLibm 9 0.100686685370811| ≤ 1e-4 := by
  have d1 : decode_input_oetf realLibm 1 0.02740668 = (0.02740668 : ℝ) / 10.44426855 := by
    show oetf_davinci_intermediate realLibm 0.02740668 = _
    unfold oetf_davinci_intermediate
    rw [if_pos le_rfl]
  have d2 : decode_input_oetf realLibm 2 0.075
      = _expf realLibm ((0.075 - 0.5520126568606655) / 0.09232902596577353)
        - 0.0057048244042473785 := by
    show oetf_filmlight_tlog realLibm 0.075 = _
    unfold oetf_filmlight_tlog
    rw [if_neg (lt_irrefl _)]
  have d3 : decode_input_oetf realLibm 3 0.155251141552511
      = ((0.155251141552511 : ℝ) - 0.0729055341958355) / 10.5402377416545 := by
    show oetf_acescct realLibm 0.155251141552511 = _
    unfold oetf_acescct
    rw [if_pos le_rfl]
  have d4 : decode_input_oetf realLibm 4 (5.367655 * 0.010591 + 0.092809)
      = (_exp10f realLibm ((5.367655 * 0.010591 + 0.092809 - 0.385537) / 0.247190)
          - 0.052272) / 5.555556 := by
    show oetf_arri_logc3 realLibm _ = _
    unfold oetf_arri_logc3
    rw [if_neg (lt_irrefl _)]
  have d6 : decode_input_oetf realLibm 6 0 = (0 : ℝ) / 15.1927 - 0.01 := by
    show oetf_red_log3g10 realLibm 0 = _
    unfold oetf_red_log3g10
    rw [if_neg (lt_irrefl _)]
    simp [_exp10f, realLibm]
  have d7 : decode_input_oetf realLibm 7 0.181
      = _exp10f realLibm ((0.181 - 0.598206) / 0.241514) - 0.00873 := by
    show oetf_panasonic_vlog realLibm 0.181 = _
    unfold oetf_panasonic_vlog
    rw [if_neg (lt_irrefl _)]
  have d8 : decode_input_oetf realLibm 8 (171.2102946929 / 1023)
      = _exp10f realLibm (((171.2102946929 / 1023) * 1023 - 420) / 261.5) * (0.18 + 0.01)
        - 0.01 := by
    show oetf_sony_slog3 realLibm _ = _
    unfold oetf_sony_slog3
    rw [if_neg (lt_irrefl _)]
  have d9 : decode_input_oetf realLibm 9 0.100686685370811
      = _exp10f realLibm ((0.100686685370811 - 0.384316) / 0.245281) / 5.555556
        - 0.064829 / 5.555556 := by
    show oetf_fujifilm_flog2 realLibm _ = _
    unfold oetf_fujifilm_flog2
    rw [if_neg (lt_irrefl _)]
  refine ⟨?_, ?_, ?_, ?_, ?_, ?_, ?_, ?_⟩
  · rw [d1, abs_le]
    have h1 := davinci_join
    have h2 := davinci_join_close
    constructor <;> linarith
  · rw [d2, abs_le]
    have h1 := tlog_join_close
    have h2 := tlog_drop
    unfold oetf_filmlight_tlog at h2
    rw [if_neg (by norm_num), if_pos (by norm_num)] at h2
    constructor
    · norm_num at h2 ⊢
      linarith
    · norm_num
      linarith
  · rw [d3, abs_le]
    obtain ⟨h1, h2⟩ := acescct_join_close
    constructor
    · have : ((0.155251141552511 : ℝ) - 0.0729055341958355) / 10.5402377416545
          ≥ 0.0078 := by norm_num
      linarith
    · have : ((0.155251141552511 : ℝ) - 0.0729055341958355) / 10.5402377416545
          ≤ 0.00782 := by norm_num
      linarith
  · rw [d4, abs_le]
    have h1 := logc3_join
    have h2 := logc3_join_close
    constructor <;> linarith
  · rw [d6, sub_self, abs_zero]
    norm_num
  · rw [d7, abs_le]
    have h1 := vlog_join
    have h2 := vlog_join_close
    constructor <;> linarith
  · rw [d8, abs_le]
    have h1 := slog3_join
    have h2 := slog3_join_close
    constructor <;> linarith
  · rw [d9, abs_le]
    have h1 := flog2_join
    have h2 := flog2_join_close
    constructor <;> linarith

/-- Claim C19. `encode_rec709_24` clamps before the power: it returns `0` for every `x ≤ 0`
(as for `x = 0`), `x ^ (1/2.4)` for every `x > 0`, and never a negative value. -/
theorem encode_rec709_24_clamps (x : ℝ) :
    (x ≤ 0 → encode_rec709_24 realLibm x = 0)
    ∧ encode_rec709_24 realLibm 0 = 0
    ∧ (0 < x → encode_rec709_24 realLibm x = x ^ ((1 : ℝ) / 2.4))
    ∧ 0 ≤ encode_rec709_24 realLibm x := by
  have hz : ∀ y : ℝ, y ≤ 0 → encode_rec709_24 realLibm y = 0 := by
    intro y hy
    simp only [encode_rec709_24, realLibm, max_eq_right hy]
    exact Real.zero_rpow (by norm_num)
  refine ⟨hz x, hz 0 le_rfl, ?_, ?_⟩
  · intro hx
    simp only [encode_rec709_24, realLibm, max_eq_left hx.le]
  · simp only [encode_rec709_24, realLibm]
    exact Real.rpow_nonneg (le_max_right _ _) _

/-- Claim C16. For the input `(0.18, 0.18, 0.18)`, Rec.709 gamut, linear transfer and all
stages disabled: the DaVinci Intermediate pair is exact on the three working-space channels,
the two matrix/inverse pairs give `(0.18, 0.18, 0.18)` back, and every output channel equals
`0.18 ^ (1/2.4)`. -/
theorem golden_grey_value :
    (decode_davinci_intermediate realLibm (encode_davinci_intermediate realLibm
          (mat_apply (xyzToDaVinciWG : Mat3 ℝ)
            (mat_apply (inputGamutToXYZ 5) (⟨0.18, 0.18, 0.18⟩ : float3 ℝ))).x)
        = (mat_apply (xyzToDaVinciWG : Mat3 ℝ)
            (mat_apply (inputGamutToXYZ 5) (⟨0.18, 0.18, 0.18⟩ : float3 ℝ))).x
      ∧ decode_davinci_intermediate realLibm (encode_davinci_intermediate realLibm
          (mat_apply (xyzToDaVinciWG : Mat3 ℝ)
            (mat_apply (inputGamutToXYZ 5) (⟨0.18, 0.18, 0.18⟩ : float3 ℝ))).y)
        = (mat_apply (xyzToDaVinciWG : Mat3 ℝ)
            (mat_apply (inputGamutToXYZ 5) (⟨0.18, 0.18, 0.18⟩ : float3 ℝ))).y
      ∧ decode_davinci_intermediate realLibm (encode_davinci_intermediate realLibm
          (mat_apply (xyzToDaVinciWG : Mat3 ℝ)
            (mat_apply (inputGamutToXYZ 5) (⟨0.18, 0.18, 0.18⟩ : float3 ℝ))).z)
        = (mat_apply (xyzToDaVinciWG : Mat3 ℝ)
            (mat_apply (inputGamutToXYZ 5) (⟨0.18, 0.18, 0.18⟩ : float3 ℝ))).z)
    ∧ mat_apply (xyzToRec709 : Mat3 ℝ) (mat_apply matrix_davinciwg_to_xyz
          (mat_apply xyzToDaVinciWG
            (mat_apply (inputGamutToXYZ 5) (⟨0.18, 0.18, 0.18⟩ : float3 ℝ))))
        = ⟨0.18, 0.18, 0.18⟩
    ∧ dwg_di_to_rec709_24 realLibm
          (input_to_dwg_intermediate realLibm ⟨0.18, 0.18, 0.18⟩ 5 0)
        = ⟨(0.18 : ℝ) ^ ((1 : ℝ) / 2.4), (0.18 : ℝ) ^ ((1 : ℝ) / 2.4),
            (0.18 : ℝ) ^ ((1 : ℝ) / 2.4)⟩
    ∧ ∀ (E : EmbeddedLUTs ℝ) (P : FilmPipelineProcessor ℝ) (nComp : Int) (srcPix : Nat → ℝ),
        P.inGamut = 5 → P.inOetf = 0 → P.negEnable = false → P.sepEnable = false →
        P.printEnable = false → srcPix 0 = 0.18 → srcPix 1 = 0.18 → srcPix 2 = 0.18 →
        (pixel_locals realLibm E P nComp srcPix).out_rgb
          = ⟨(0.18 : ℝ) ^ ((1 : ℝ) / 2.4), (0.18 : ℝ) ^ ((1 : ℝ) / 2.4),
              (0.18 : ℝ) ^ ((1 : ℝ) / 2.4)⟩ := by
  obtain ⟨hx, hy, hz⟩ := grey_dwg_lin_large
  have rx := davinci_round_trip_exact _ hx
  have ry := davinci_round_trip_exact _ hy
  have rz := davinci_round_trip_exact _ hz
  have hm : mat_apply (xyzToRec709 : Mat3 ℝ) (mat_apply matrix_davinciwg_to_xyz
          (mat_apply xyzToDaVinciWG
            (mat_apply (inputGamutToXYZ 5) (⟨0.18, 0.18, 0.18⟩ : float3 ℝ))))
        = ⟨0.18, 0.18, 0.18⟩ := by
    have h5 : (inputGamutToXYZ 5 : Mat3 ℝ) = matrix_rec709_to_xyz := rfl
    rw [h5, xyzToDaVinciWG, mat_apply_inv3_right _ det3_davinciwg_ne_zero, xyzToRec709,
      mat_apply_inv3_left _ det3_rec709_ne_zero]
  have hg : dwg_di_to_rec709_24 realLibm
          (input_to_dwg_intermediate realLibm ⟨0.18, 0.18, 0.18⟩ 5 0)
        = ⟨(0.18 : ℝ) ^ ((1 : ℝ) / 2.4), (0.18 : ℝ) ^ ((1 : ℝ) / 2.4),
            (0.18 : ℝ) ^ ((1 : ℝ) / 2.4)⟩ := by
    have hd : ∀ x : ℝ, decode_input_oetf realLibm 0 x = x := fun x => rfl
    have he : encode_rec709_24 realLibm 0.18 = (0.18 : ℝ) ^ ((1 : ℝ) / 2.4) := by
      simp only [encode_rec709_24, realLibm]
      rw [max_eq_left (by norm_num)]
    simp only [dwg_di_to_rec709_24, input_to_dwg_intermediate, hd, rx, ry, rz]
    have e : (⟨(mat_apply (xyzToDaVinciWG : Mat3 ℝ)
            (mat_apply (inputGamutToXYZ 5) (⟨0.18, 0.18, 0.18⟩ : float3 ℝ))).x,
          (mat_apply (xyzToDaVinciWG : Mat3 ℝ)
            (mat_apply (inputGamutToXYZ 5) (⟨0.18, 0.18, 0.18⟩ : float3 ℝ))).y,
          (mat_apply (xyzToDaVinciWG : Mat3 ℝ)
            (mat_apply (inputGamutToXYZ 5) (⟨0.18, 0.18, 0.18⟩ : float3 ℝ))).z⟩ : float3 ℝ)
        = mat_apply (xyzToDaVinciWG : Mat3 ℝ)
            (mat_apply (inputGamutToXYZ 5) (⟨0.18, 0.18, 0.18⟩ : float3 ℝ)) := rfl
    rw [e, hm, he]
  refine ⟨⟨rx, ry, rz⟩, hm, hg, ?_⟩
  intro E P nComp srcPix h1 h2 hn hs hp s0 s1 s2
  rw [out_rgb_stages_disabled realLibm E P nComp srcPix hn hs hp, h1, h2, s0, s1, s2, hg]

/-- Claim C17 at the failing curve. At its breakpoint the Arri LogC4 decode jumps: the value
just below the breakpoint (affine branch) lies more than `0.98` under the value at the
breakpoint (logarithmic branch), and so do the two branch formulas at the breakpoint. -/
theorem logc4_breakpoint_jump :
    decode_input_oetf realLibm 5 (-0.7774983977293538) + 0.98
        < decode_input_oetf realLibm 5 (-0.7774983977293537)
      ∧ (-0.7774983977293537 : ℝ) * 0.3033266726886969 - 0.7774983977293537 + 0.98
        < (_exp2f realLibm (14 * (-0.7774983977293537 - 0.09286412512218964)
              / 0.9071358748778103 + 6) - 64) / 2231.8263090676883 := by
  have hpos : 0 < _exp2f realLibm (14 * (-0.7774983977293537 - 0.09286412512218964)
            / 0.9071358748778103 + 6) := Real.exp_pos _
  have hlow : (-64 : ℝ) / 2231.8263090676883
      < (_exp2f realLibm (14 * (-0.7774983977293537 - 0.09286412512218964)
            / 0.9071358748778103 + 6) - 64) / 2231.8263090676883 := by
    apply div_lt_div_of_pos_right _ (by norm_num)
    linarith
  have h5 : ∀ x : ℝ, decode_input_oetf realLibm 5 x = oetf_arri_logc4 realLibm x :=
    fun x => rfl
  refine ⟨?_, lt_trans (by norm_num) hlow⟩
  rw [h5, h5]
  unfold oetf_arri_logc4
  rw [if_pos (by norm_num), if_neg (by norm_num)]
  exact lt_trans (by norm_num) hlow

/-- Claim C22. Table selection is defined for every index and always yields a table of size
`33`: `get_neg_lut` returns the table of variant `0` (Cthulhu) outside `0 .. 3`, `get_sep_lut`
the table of variant `0` (Hydra) outside `0 .. 2`, and `get_print_lut` the Kodak table for
every index. -/
theorem lut_selection_defaults {F : Type} (E : EmbeddedLUTs F) (choice : Int) :
    (get_neg_lut E choice).size = 33 ∧ (get_sep_lut E choice).size = 33
      ∧ (get_print_lut E choice).size = 33
      ∧ (choice < 0 ∨ 4 ≤ choice → get_neg_lut E choice = get_neg_lut E 0)
      ∧ get_neg_lut E 0 = ⟨E.LUT_NEG_CTHULHU, 33⟩
      ∧ (choice < 0 ∨ 3 ≤ choice → get_sep_lut E choice = get_sep_lut E 0)
      ∧ get_sep_lut E 0 = ⟨E.LUT_SEP_HYDRA, 33⟩
      ∧ get_print_lut E choice = ⟨E.LUT_PRINT_KODAK, 33⟩ :=
  ⟨get_neg_lut_size E choice, get_sep_lut_size E choice, rfl,
    fun h => get_neg_lut_default E choice h, rfl,
    fun h => get_sep_lut_default E choice h, rfl, rfl⟩

/-- Claim C26, as amended. For a table of size `1 ≤ N ≤ 894` and all integers `r g b` the index
that the source computes in 32-bit `int` is the exact one: `lut_fetch` reads the three entries
at `flat_index`, `flat_index + 1` and `flat_index + 2`, these lie in `0 .. 3 * N ^ 3 - 1`, and
`3 * N ^ 3` does not exceed `2 ^ 31`; in-range triples with the same flat index are equal; and
one step in blue, green, red moves the flat index by `3`, `3 * N`, `3 * N * N`. -/
theorem lut_fetch_in_bounds {F : Type} (lut : Lut3D F) (r g b : Int) (hN : 1 ≤ lut.size)
    (hM : lut.size ≤ 894) :
    lut_fetch lut r g b
        = ⟨lut.data (flat_index lut.size r g b), lut.data (flat_index lut.size r g b + 1),
            lut.data (flat_index lut.size r g b + 2)⟩
      ∧ 0 ≤ flat_index lut.size r g b
      ∧ flat_index lut.size r g b + 2 < 3 * lut.size ^ 3
      ∧ 3 * lut.size ^ 3 ≤ 2147483648
      ∧ (∀ r2 g2 b2 : Int, 0 ≤ r ∧ r < lut.size → 0 ≤ g ∧ g < lut.size →
          0 ≤ b ∧ b < lut.size → 0 ≤ r2 ∧ r2 < lut.size → 0 ≤ g2 ∧ g2 < lut.size →
          0 ≤ b2 ∧ b2 < lut.size →
          flat_index lut.size r g b = flat_index lut.size r2 g2 b2 →
          r = r2 ∧ g = g2 ∧ b = b2)
      ∧ (0 ≤ r ∧ r < lut.size → 0 ≤ g ∧ g < lut.size → 0 ≤ b ∧ b < lut.size →
          (b + 1 < lut.size →
            flat_index lut.size r g (b + 1) = flat_index lut.size r g b + 3)
          ∧ (g + 1 < lut.size →
            flat_index lut.size r (g + 1) b = flat_index lut.size r g b + 3 * lut.size)
          ∧ (r + 1 < lut.size →
            flat_index lut.size (r + 1) g b
              = flat_index lut.size r g b + 3 * lut.size * lut.size)) := by
  have hw : ∀ r g b : Int, flat_index lut.size r g b = flat_index_exact lut.size r g b :=
    fun r g b => flat_index_no_wrap lut.size r g b hN hM
  have h3 : 3 * lut.size ^ 3 ≤ 2147483648 := by
    have h0 : (0 : Int) ≤ lut.size := by omega
    have h2 : lut.size ^ 3 ≤ 894 ^ 3 := pow_le_pow_left₀ h0 hM 3
    norm_num at h2
    omega
  simp only [hw]
  exact ⟨rfl, (flat_index_exact_bounds lut.size r g b hN).1,
    (flat_index_exact_bounds lut.size r g b hN).2, h3,
    fun r2 g2 b2 hr hg hb hr2 hg2 hb2 h =>
      flat_index_exact_injective lut.size r g b r2 g2 b2 hN hr hg hb hr2 hg2 hb2 h,
    fun hr hg hb => flat_index_exact_strides lut.size r g b hr hg hb⟩

/-- Claim C26 fails for large tables: for `N = 1000` and `r = g = b = 999` the exact index
`2999999997` does not fit a 32-bit `int`, and the index that the source computes is
`-1294967299`, before the start of the table; `N = 895` is the first size at which the index
of the last entry overflows. -/
theorem lut_fetch_index_overflow :
    (1 : Int) ≤ 1000
      ∧ flat_index_exact 1000 999 999 999 = 2999999997
      ∧ flat_index 1000 999 999 999 = -1294967299
      ∧ ¬ 0 ≤ flat_index 1000 999 999 999
      ∧ flat_index 895 894 894 894 = -2144215174 := by
  decide

/-! ## The theorems at concrete inputs -/

/-- Claim C1 at a grey RGBA pixel, Rec.709 linear input, all stages disabled. -/
theorem stage_disable_is_noop_witness :
    stages_off.negEnable = false ∧ stages_off.sepEnable = false
      ∧ stages_off.printEnable = false
      ∧ (pixel_locals realLibm zero_bank stages_off 4 grey_pixel).out_rgb
        = dwg_di_to_rec709_24 realLibm
            (input_to_dwg_intermediate realLibm ⟨grey_pixel 0, grey_pixel 1, grey_pixel 2⟩
              stages_off.inGamut stages_off.inOetf) :=
  ⟨rfl, rfl, rfl,
    (stage_disable_is_noop realLibm zero_bank stages_off 4 grey_pixel grey_pixel
      rfl rfl rfl).1⟩

/-- Claim C3 at the identity 3-cube and the input `(3/5, 4/5, 11/20)`: the offsets are
`(1/5, 3/5, 1/10)`, so the case `dy > dx ≥ dz` applies. -/
theorem tetra_six_orderings_witness :
    cell_index (identity_lut 3 : Lut3D ℚ) (3 / 5) = 1
      ∧ cell_index (identity_lut 3 : Lut3D ℚ) (4 / 5) = 1
      ∧ cell_index (identity_lut 3 : Lut3D ℚ) (11 / 20) = 1
      ∧ frac_offset (identity_lut 3 : Lut3D ℚ) (3 / 5) = 1 / 5
      ∧ frac_offset (identity_lut 3 : Lut3D ℚ) (4 / 5) = 3 / 5
      ∧ frac_offset (identity_lut 3 : Lut3D ℚ) (11 / 20) = 1 / 10
      ∧ lut_sample_tetra (identity_lut 3) (⟨3 / 5, 4 / 5, 11 / 20⟩ : float3 ℚ)
        = lut_fetch (identity_lut 3 : Lut3D ℚ) 1 1 1
          + (lut_fetch (identity_lut 3 : Lut3D ℚ) 1 (1 + 1) 1
              - lut_fetch (identity_lut 3 : Lut3D ℚ) 1 1 1) * (3 / 5 : ℚ)
          + (lut_fetch (identity_lut 3 : Lut3D ℚ) (1 + 1) (1 + 1) 1
              - lut_fetch (identity_lut 3 : Lut3D ℚ) 1 (1 + 1) 1) * (1 / 5 : ℚ)
          + (lut_fetch (identity_lut 3 : Lut3D ℚ) (1 + 1) (1 + 1) (1 + 1)
              - lut_fetch (identity_lut 3 : Lut3D ℚ) (1 + 1) (1 + 1) 1) * (1 / 10 : ℚ) := by
  have hx : cell_index (identity_lut 3 : Lut3D ℚ) (3 / 5) = 1 := by
    norm_num [cell_index, grid_pos, clampf, identity_lut, Int.floor_eq_iff]
  have hy : cell_index (identity_lut 3 : Lut3D ℚ) (4 / 5) = 1 := by
    norm_num [cell_index, grid_pos, clampf, identity_lut, Int.floor_eq_iff]
  have hz : cell_index (identity_lut 3 : Lut3D ℚ) (11 / 20) = 1 := by
    norm_num [cell_index, grid_pos, clampf, identity_lut, Int.floor_eq_iff]
  have dx : frac_offset (identity_lut 3 : Lut3D ℚ) (3 / 5) = 1 / 5 := by
    rw [frac_offset, hx]
    norm_num [grid_pos, clampf, identity_lut]
  have dy : frac_offset (identity_lut 3 : Lut3D ℚ) (4 / 5) = 3 / 5 := by
    rw [frac_offset, hy]
    norm_num [grid_pos, clampf, identity_lut]
  have dz : frac_offset (identity_lut 3 : Lut3D ℚ) (11 / 20) = 1 / 10 := by
    rw [frac_offset, hz]
    norm_num [grid_pos, clampf, identity_lut]
  exact ⟨hx, hy, hz, dx, dy, dz,
    ((tetra_six_orderings (identity_lut 3) (⟨3 / 5, 4 / 5, 11 / 20⟩ : float3 ℚ) 1 1 1
      (1 / 5) (3 / 5) (1 / 10) _ _ _ _ _ _ _ _ hx.symm hy.symm hz.symm dx.symm dy.symm dz.symm
      rfl rfl rfl rfl rfl rfl rfl rfl).2.2.2.1 ⟨by norm_num, by norm_num⟩).1⟩

/-- Claim C6 at a matrix of determinant `1`. -/
theorem inv3_two_sided_witness :
    det3 (⟨1, 2, 3, 0, 1, 4, 5, 6, 0⟩ : Mat3 ℚ) ≠ 0
      ∧ mat_vec (inv3 (⟨1, 2, 3, 0, 1, 4, 5, 6, 0⟩ : Mat3 ℚ))
          (mat_vec ⟨1, 2, 3, 0, 1, 4, 5, 6, 0⟩ (1, 2, 3)) = (1, 2, 3)
      ∧ mat_vec (⟨1, 2, 3, 0, 1, 4, 5, 6, 0⟩ : Mat3 ℚ)
          (mat_vec (inv3 ⟨1, 2, 3, 0, 1, 4, 5, 6, 0⟩) (1, 2, 3)) = (1, 2, 3) :=
  ⟨by norm_num [det3],
    inv3_two_sided ⟨1, 2, 3, 0, 1, 4, 5, 6, 0⟩ (by norm_num [det3]) (1, 2, 3)⟩

/-- Claim C8 at a matrix with two equal rows. -/
theorem inv3_singular_is_identity_witness :
    det3 (⟨1, 2, 3, 1, 2, 3, 4, 5, 6⟩ : Mat3 ℚ) = 0
      ∧ inv3 (⟨1, 2, 3, 1, 2, 3, 4, 5, 6⟩ : Mat3 ℚ) = mat_identity :=
  ⟨by norm_num [det3],
    inv3_singular_is_identity ⟨1, 2, 3, 1, 2, 3, 4, 5, 6⟩ (by norm_num [det3])⟩

/-- Claim C9 at `y = 0.00262408803`, between the encode breakpoint and the image of the
decode breakpoint, where the two branch tests disagree. -/
theorem davinci_round_trip_witness :
    (1e-4 : ℝ) ≤ 0.00262408803 ∧ (0.00262408803 : ℝ) ≤ 10
      ∧ |decode_davinci_intermediate realLibm
            (encode_davinci_intermediate realLibm 0.00262408803) - 0.00262408803|
          ≤ 1e-5 * 0.00262408803 :=
  ⟨by norm_num, by norm_num,
    davinci_round_trip 0.00262408803 (by norm_num) (by norm_num)⟩

/-- Claim C10 with the three stages enabled and blend factors `-0.5`, `0`, `-3`. -/
theorem blend_nonpos_is_prestage_witness :
    (pixel_locals realLibm zero_bank blends_low 4 grey_pixel).after_neg
        = (pixel_locals realLibm zero_bank blends_low 4 grey_pixel).dwg_di
      ∧ (pixel_locals realLibm zero_bank blends_low 4 grey_pixel).after_sep
        = (pixel_locals realLibm zero_bank blends_low 4 grey_pixel).after_neg
      ∧ (pixel_locals realLibm zero_bank blends_low 4 grey_pixel).out_rgb
        = (pixel_locals realLibm zero_bank blends_low 4 grey_pixel).baseline :=
  ⟨(blend_nonpos_is_prestage realLibm zero_bank blends_low 4 grey_pixel).1 rfl
      (by norm_num [blends_low]),
    (blend_nonpos_is_prestage realLibm zero_bank blends_low 4 grey_pixel).2.1 rfl
      (by norm_num [blends_low]),
    (blend_nonpos_is_prestage realLibm zero_bank blends_low 4 grey_pixel).2.2 rfl
      (by norm_num [blends_low])⟩

/-- Claim C11 with the three stages enabled and blend factors `1`, `2.5`, `1`. -/
theorem blend_ge_one_is_transformed_witness :
    (pixel_locals realLibm zero_bank blends_high 4 grey_pixel).after_neg
        = (pixel_locals realLibm zero_bank blends_high 4 grey_pixel).dwg_di
          * neg_scale (get_neg_lut zero_bank blends_high.negChoice)
              (pixel_locals realLibm zero_bank blends_high 4 grey_pixel).dwg_di
      ∧ (pixel_locals realLibm zero_bank blends_high 4 grey_pixel).after_sep
        = lut_sample_tetra (get_sep_lut zero_bank blends_high.sepChoice)
            (pixel_locals realLibm zero_bank blends_high 4 grey_pixel).after_neg
      ∧ (pixel_locals realLibm zero_bank blends_high 4 grey_pixel).out_rgb
        = lut_sample_tetra (get_print_lut zero_bank blends_high.printChoice)
            (pixel_locals realLibm zero_bank blends_high 4 grey_pixel).after_sep :=
  ⟨(blend_ge_one_is_transformed realLibm zero_bank blends_high 4 grey_pixel).1 rfl
      (by norm_num [blends_high]),
    (blend_ge_one_is_transformed realLibm zero_bank blends_high 4 grey_pixel).2.1 rfl
      (by norm_num [blends_high]),
    (blend_ge_one_is_transformed realLibm zero_bank blends_high 4 grey_pixel).2.2 rfl
      (by norm_num [blends_high])⟩

/-- Claim C12 at the default blend `0.8`. -/
theorem negative_stage_rescales_witness :
    stages_on.negEnable = true
      ∧ (pixel_locals realLibm zero_bank stages_on 4 grey_pixel).after_neg
        = (pixel_locals realLibm zero_bank stages_on 4 grey_pixel).dwg_di
          * (1 + clampf stages_on.negBlend 0 1
              * (neg_scale (get_neg_lut zero_bank stages_on.negChoice)
                  (pixel_locals realLibm zero_bank stages_on 4 grey_pixel).dwg_di - 1)) :=
  ⟨rfl, negative_stage_rescales realLibm zero_bank stages_on 4 grey_pixel rfl⟩

/-- Claim C14 at a pixel of alpha `0.37` with every stage enabled. -/
theorem alpha_passthrough_witness :
    process_pixel realLibm zero_bank stages_on 4 grey_pixel black_pixel 3 = 0.37 := by
  have h := (alpha_passthrough realLibm zero_bank stages_on grey_pixel black_pixel).2
  simpa [grey_pixel] using h

/-- The fourth output component of Claim C15 fails: for a three-component pixel written
into a destination that holds `0`, the cell after the three colour components still holds `0`,
not `1`. -/
theorem three_component_alpha_counterexample :
    process_pixel realLibm zero_bank stages_on 3 grey_pixel black_pixel 3 ≠ 1 := by
  simp [process_pixel, pixel_write, black_pixel]

/-- The working-space triple of a black pixel is zero. -/
theorem black_dwg_di :
    (pixel_locals realLibm zero_bank stages_on 4 black_pixel).dwg_di = ⟨0, 0, 0⟩ := by
  have he : encode_davinci_intermediate realLibm 0 = 0 := by
    unfold encode_davinci_intermediate
    rw [if_pos (by norm_num)]
    norm_num
  simp only [pixel_locals, input_to_dwg_intermediate, stages_on, black_pixel,
    decode_input_oetf, if_true, mat_apply, mat_vec, mul_zero, add_zero, he]

theorem black_luma :
    luma_rec709 (pixel_locals realLibm zero_bank stages_on 4 black_pixel).dwg_di ≤ 1e-6 := by
  rw [black_dwg_di]
  norm_num [luma_rec709]

/-- Claim C13 at a black pixel, whose working-space luma is `0`. -/
theorem negative_stage_low_luma_witness :
    luma_rec709 (pixel_locals realLibm zero_bank stages_on 4 black_pixel).dwg_di ≤ 1e-6
      ∧ neg_scale (get_neg_lut zero_bank stages_on.negChoice)
          (pixel_locals realLibm zero_bank stages_on 4 black_pixel).dwg_di = 1
      ∧ (pixel_locals realLibm zero_bank stages_on 4 black_pixel).after_neg
        = (pixel_locals realLibm zero_bank stages_on 4 black_pixel).dwg_di :=
  ⟨black_luma, negative_stage_low_luma realLibm zero_bank stages_on 4 black_pixel black_luma⟩

/-- Claim C16 at the grey pixel with the three stages disabled. -/
theorem golden_grey_value_witness :
    (pixel_locals realLibm zero_bank stages_off 4 grey_pixel).out_rgb
      = ⟨(0.18 : ℝ) ^ ((1 : ℝ) / 2.4), (0.18 : ℝ) ^ ((1 : ℝ) / 2.4),
          (0.18 : ℝ) ^ ((1 : ℝ) / 2.4)⟩ :=
  golden_grey_value.2.2.2 zero_bank stages_off 4 grey_pixel rfl rfl rfl rfl rfl
    (by norm_num [grey_pixel]) (by norm_num [grey_pixel]) (by norm_num [grey_pixel])

/-- Claim C23 at the grey pixel with blend `1`. -/
theorem negative_stage_transfers_luma_witness :
    blends_high.negEnable = true ∧ 1 ≤ blends_high.negBlend
      ∧ luma_rec709 (pixel_locals realLibm zero_bank blends_high 4 grey_pixel).dwg_di > 1e-6
      ∧ luma_rec709 (pixel_locals realLibm zero_bank blends_high 4 grey_pixel).after_neg
        = luma_rec709 (lut_sample_tetra (get_neg_lut zero_bank blends_high.negChoice)
            ⟨luma_rec709 (pixel_locals realLibm zero_bank blends_high 4 grey_pixel).dwg_di,
             luma_rec709 (pixel_locals realLibm zero_bank blends_high 4 grey_pixel).dwg_di,
             luma_rec709 (pixel_locals realLibm zero_bank blends_high 4 grey_pixel).dwg_di⟩) :=
  ⟨rfl, by norm_num [blends_high], grey_luma_large,
    negative_stage_transfers_luma realLibm zero_bank blends_high 4 grey_pixel rfl
      (by norm_num [blends_high]) grey_luma_large⟩

/-- Claim C25 at the identity 3-cube and the input `(1/2, 3/10, 1/5)`, whose position along
the red axis is the integer `1`. -/
theorem lut_sample_face_continuity_witness :
    cell_index (identity_lut 3 : Lut3D ℚ) (1 / 2) = 0 + 1
      ∧ frac_offset (identity_lut 3 : Lut3D ℚ) (1 / 2) = 0
      ∧ lut_sample_tetra (identity_lut 3) (⟨1 / 2, 3 / 10, 1 / 5⟩ : float3 ℚ)
        = tetra_interp
            (lut_fetch (identity_lut 3 : Lut3D ℚ) 0 (cell_index (identity_lut 3 : Lut3D ℚ)
              (3 / 10)) (cell_index (identity_lut 3 : Lut3D ℚ) (1 / 5)))
            (lut_fetch (identity_lut 3 : Lut3D ℚ) (0 + 1)
              (cell_index (identity_lut 3 : Lut3D ℚ) (3 / 10))
              (cell_index (identity_lut 3 : Lut3D ℚ) (1 / 5)))
            (lut_fetch (identity_lut 3 : Lut3D ℚ) 0
              (cell_index (identity_lut 3 : Lut3D ℚ) (3 / 10) + 1)
              (cell_index (identity_lut 3 : Lut3D ℚ) (1 / 5)))
            (lut_fetch (identity_lut 3 : Lut3D ℚ) 0
              (cell_index (identity_lut 3 : Lut3D ℚ) (3 / 10))
              (cell_index (identity_lut 3 : Lut3D ℚ) (1 / 5) + 1))
            (lut_fetch (identity_lut 3 : Lut3D ℚ) (0 + 1)
              (cell_index (identity_lut 3 : Lut3D ℚ) (3 / 10) + 1)
              (cell_index (identity_lut 3 : Lut3D ℚ) (1 / 5)))
            (lut_fetch (identity_lut 3 : Lut3D ℚ) (0 + 1)
              (cell_index (identity_lut 3 : Lut3D ℚ) (3 / 10))
              (cell_index (identity_lut 3 : Lut3D ℚ) (1 / 5) + 1))
            (lut_fetch (identity_lut 3 : Lut3D ℚ) 0
              (cell_index (identity_lut 3 : Lut3D ℚ) (3 / 10) + 1)
              (cell_index (identity_lut 3 : Lut3D ℚ) (1 / 5) + 1))
            (lut_fetch (identity_lut 3 : Lut3D ℚ) (0 + 1)
              (cell_index (identity_lut 3 : Lut3D ℚ) (3 / 10) + 1)
              (cell_index (identity_lut 3 : Lut3D ℚ) (1 / 5) + 1))
            1 (frac_offset (identity_lut 3 : Lut3D ℚ) (3 / 10))
            (frac_offset (identity_lut 3 : Lut3D ℚ) (1 / 5)) := by
  have hc : cell_index (identity_lut 3 : Lut3D ℚ) (1 / 2) = 0 + 1 := by
    norm_num [cell_index, grid_pos, clampf, identity_lut]
  have h0 : frac_offset (identity_lut 3 : Lut3D ℚ) (1 / 2) = 0 := by
    rw [frac_offset, hc]
    norm_num [grid_pos, clampf, identity_lut]
  exact ⟨hc, h0,
    (lut_sample_face_continuity (identity_lut 3) (⟨1 / 2, 3 / 10, 1 / 5⟩ : float3 ℚ) 0).1
      hc h0⟩

/-- Claim C26 at the largest admitted size, `894`, and the requested indices `(900, 900, 900)`,
clamped to `(893, 893, 893)`. -/
theorem lut_fetch_in_bounds_witness :
    (1 : Int) ≤ (identity_lut 894 : Lut3D ℚ).size
      ∧ (identity_lut 894 : Lut3D ℚ).size ≤ 894
      ∧ flat_index 894 900 900 900 = 2143550949
      ∧ 0 ≤ flat_index (identity_lut 894 : Lut3D ℚ).size 900 900 900
      ∧ flat_index (identity_lut 894 : Lut3D ℚ).size 900 900 900 + 2
          < 3 * (identity_lut 894 : Lut3D ℚ).size ^ 3 :=
  ⟨by decide, by decide, by decide,
    (lut_fetch_in_bounds (identity_lut 894 : Lut3D ℚ) 900 900 900 (by decide)
      (by decide)).2.1,
    (lut_fetch_in_bounds (identity_lut 894 : Lut3D ℚ) 900 900 900 (by decide)
      (by decide)).2.2.1⟩

end FilmEmulation
